import Mathlib

/-
Verification of the outbound webhook delivery subsystem of the billing
platform (tenants/view_modules/webhook_delivery.py,
tenants/view_modules/webhook_management_views.py, core/tasks.py,
tenants/models.py, webhooks/models.py).

The embedding models the database as explicit state (lists of rows),
machine time as an abstract Nat clock, and the outbound HTTP call as an
oracle value (HttpOutcome) supplied by the environment.  The hash and
JSON libraries the source calls (hashlib.sha256, hmac, json.dumps) are
embedded executably: SHA-256 follows FIPS 180-4, HMAC follows RFC 2104,
and json.dumps follows CPython's encoder for the two parameter sets the
source uses (default, and separators=(',', ':') with sort_keys=True).
-/

set_option maxRecDepth 4096

/-! ## JSON values and `json.dumps` -/

mutual

/-- A JSON value, as produced by the Django JSONFields and dict literals the
delivery code serializes.  Numbers are restricted to integers, which is what
the webhook envelope and the payloads in the claims contain.  Arrays and
objects carry their children through the mutually inductive spine types
JsonItems and JsonFields (isomorphic to lists), so that all recursion over
values is structural. -/
inductive Json where
  | null : Json
  | bool (b : Bool) : Json
  | num (n : Int) : Json
  | str (s : String) : Json
  | arr (items : JsonItems) : Json
  | obj (fields : JsonFields) : Json

/-- The items of a JSON array. -/
inductive JsonItems where
  | nil : JsonItems
  | cons (hd : Json) (tl : JsonItems) : JsonItems

/-- The key/value members of a JSON object, in insertion order. -/
inductive JsonFields where
  | nil : JsonFields
  | cons (key : String) (val : Json) (tl : JsonFields) : JsonFields

end

/-- Lowercase hex digit, as CPython's json encoder emits for escapes. -/
def hexDigitChar (n : Nat) : Char :=
  if n < 10 then Char.ofNat (48 + n) else Char.ofNat (87 + n)

/-- Four lowercase hex digits of a code unit, for a \u escape. -/
def hex4 (n : Nat) : String :=
  String.mk [hexDigitChar ((n / 4096) % 16), hexDigitChar ((n / 256) % 16),
             hexDigitChar ((n / 16) % 16), hexDigitChar (n % 16)]

/-- CPython json encoder escaping of one character (ensure_ascii=True, the
default the source runs with): the two-character escapes, \uXXXX for other
control characters and for everything outside 0x20..0x7e, surrogate pairs
above the BMP. -/
def jsonEscapeChar (c : Char) : String :=
  let n := c.toNat
  if c = '"' then "\\\""
  else if c = '\\' then "\\\\"
  else if c = '\n' then "\\n"
  else if c = '\r' then "\\r"
  else if c = '\t' then "\\t"
  else if n = 8 then "\\b"
  else if n = 12 then "\\f"
  else if n < 32 then "\\u" ++ hex4 n
  else if n < 127 then String.singleton c
  else if n < 65536 then "\\u" ++ hex4 n
  else
    "\\u" ++ hex4 (55296 + (n - 65536) / 1024) ++ "\\u" ++ hex4 (56320 + (n - 65536) % 1024)

/-- json.dumps rendering of a string literal. -/
def jsonStringDump (s : String) : String :=
  "\"" ++ String.join (s.data.map jsonEscapeChar) ++ "\""

/-- Join rendered items with a separator, as the encoder does between
array items and object members. -/
def joinSep (sep : String) : List String → String
  | [] => ""
  | [x] => x
  | x :: y :: rest => x ++ sep ++ joinSep sep (y :: rest)

/-- Lexicographic code-point comparison of character lists: the order
Python's sorted() uses on str. -/
def charListLe : List Char → List Char → Bool
  | [], _ => true
  | _ :: _, [] => false
  | a :: as, b :: bs =>
      if a.toNat < b.toNat then true
      else if b.toNat < a.toNat then false
      else charListLe as bs

/-- Python str comparison (lexicographic by code point). -/
def strLe (a b : String) : Bool := charListLe a.data b.data

/-- Insert a rendered object member into a list sorted by key (code-point
order, the order Python's sorted() uses on str keys). -/
def insertByKey (p : String × String) : List (String × String) → List (String × String)
  | [] => [p]
  | q :: qs => if strLe p.1 q.1 then p :: q :: qs else q :: insertByKey p qs

/-- Sort rendered object members by key, modelling sort_keys=True.  JSON
objects coming from Python dicts have distinct keys, for which this agrees
with sorted(dct.items()). -/
def sortByKey : List (String × String) → List (String × String)
  | [] => []
  | p :: ps => insertByKey p (sortByKey ps)

mutual

/-- json.dumps with item separator `isep`, key separator `ksep` and the
sort_keys flag.  The two instantiations the source uses are
jsonDumpsDefault and jsonDumpsCanonical below. -/
def dumpJson (isep ksep : String) (sortKeys : Bool) : Json → String
  | .null => "null"
  | .bool true => "true"
  | .bool false => "false"
  | .num n => toString n
  | .str s => jsonStringDump s
  | .arr items => "[" ++ joinSep isep (dumpItems isep ksep sortKeys items) ++ "]"
  | .obj fields =>
      let rendered := dumpFields isep ksep sortKeys fields
      let ordered := if sortKeys then sortByKey rendered else rendered
      "\x7b" ++ joinSep isep (ordered.map (fun kv => jsonStringDump kv.1 ++ ksep ++ kv.2)) ++ "\x7d"
termination_by structural j => j

/-- Renders each array item. -/
def dumpItems (isep ksep : String) (sortKeys : Bool) : JsonItems → List String
  | .nil => []
  | .cons x xs => dumpJson isep ksep sortKeys x :: dumpItems isep ksep sortKeys xs
termination_by structural items => items

/-- Renders each object member to (key, rendered value), in insertion
order; sorting by key happens afterwards when sort_keys is set, which for
the distinct keys of a Python dict agrees with sorted(dct.items()). -/
def dumpFields (isep ksep : String) (sortKeys : Bool) :
    JsonFields → List (String × String)
  | .nil => []
  | .cons k v fs => (k, dumpJson isep ksep sortKeys v) :: dumpFields isep ksep sortKeys fs
termination_by structural fields => fields

end

/-- json.dumps(x) with CPython defaults: separators (', ', ': '), insertion
order.  This is what requests.post(json=...) sends on the wire. -/
def jsonDumpsDefault (j : Json) : String := dumpJson ", " ": " false j

/-- json.dumps(x, separators=(',', ':'), sort_keys=True): the serialization
generate_webhook_signature computes the HMAC over. -/
def jsonDumpsCanonical (j : Json) : String := dumpJson "," ":" true j

/-! ## UTF-8 encoding (str.encode('utf-8')) -/

/-- UTF-8 encoding of one scalar value. -/
def charUtf8 (c : Char) : List Nat :=
  let n := c.toNat
  if n < 128 then [n]
  else if n < 2048 then [192 + n / 64, 128 + n % 64]
  else if n < 65536 then [224 + n / 4096, 128 + (n / 64) % 64, 128 + n % 64]
  else [240 + n / 262144, 128 + (n / 4096) % 64, 128 + (n / 64) % 64, 128 + n % 64]

/-- str.encode('utf-8') as a byte list. -/
def utf8Bytes (s : String) : List Nat :=
  s.data.foldr (fun c acc => charUtf8 c ++ acc) []

/-! ## SHA-256 (hashlib.sha256) and HMAC (hmac.new(..., hashlib.sha256)) -/

/-- 2^32 - 1, the 32-bit mask. -/
def mask32 : Nat := 4294967295

/-- 32-bit rotate right. -/
def rotr32 (n x : Nat) : Nat := ((x >>> n) ||| (x <<< (32 - n))) &&& mask32

/-- FIPS 180-4 sigma-0 (message schedule). -/
def ssig0 (x : Nat) : Nat := rotr32 7 x ^^^ rotr32 18 x ^^^ (x >>> 3)

/-- FIPS 180-4 sigma-1 (message schedule). -/
def ssig1 (x : Nat) : Nat := rotr32 17 x ^^^ rotr32 19 x ^^^ (x >>> 10)

/-- FIPS 180-4 Sigma-0 (compression). -/
def bsig0 (x : Nat) : Nat := rotr32 2 x ^^^ rotr32 13 x ^^^ rotr32 22 x

/-- FIPS 180-4 Sigma-1 (compression). -/
def bsig1 (x : Nat) : Nat := rotr32 6 x ^^^ rotr32 11 x ^^^ rotr32 25 x

/-- Ch(x,y,z), with 32-bit complement written as xor with the mask. -/
def chFn (x y z : Nat) : Nat := (x &&& y) ^^^ ((x ^^^ mask32) &&& z)

/-- Maj(x,y,z). -/
def majFn (x y z : Nat) : Nat := (x &&& y) ^^^ (x &&& z) ^^^ (y &&& z)

/-- The SHA-256 round constants. -/
def K256 : List Nat :=
  [1116352408, 1899447441, 3049323471, 3921009573, 961987163, 1508970993,
   2453635748, 2870763221, 3624381080, 310598401, 607225278, 1426881987,
   1925078388, 2162078206, 2614888103, 3248222580, 3835390401, 4022224774,
   264347078, 604807628, 770255983, 1249150122, 1555081692, 1996064986,
   2554220882, 2821834349, 2952996808, 3210313671, 3336571891, 3584528711,
   113926993, 338241895, 666307205, 773529912, 1294757372, 1396182291,
   1695183700, 1986661051, 2177026350, 2456956037, 2730485921, 2820302411,
   3259730800, 3345764771, 3516065817, 3600352804, 4094571909, 275423344,
   430227734, 506948616, 659060556, 883997877, 958139571, 1322822218,
   1537002063, 1747873779, 1955562222, 2024104815, 2227730452, 2361852424,
   2428436474, 2756734187, 3204031479, 3329325298]

/-- The eight 32-bit working registers of SHA-256. -/
structure Hash8 where
  a : Nat
  b : Nat
  c : Nat
  d : Nat
  e : Nat
  f : Nat
  g : Nat
  h : Nat
deriving DecidableEq

/-- The SHA-256 initial hash value. -/
def initH : Hash8 :=
  ⟨1779033703, 3144134277, 1013904242, 2773480762,
   1359893119, 2600822924, 528734635, 1541459225⟩

/-- Big-endian byte rendering of a Nat on a fixed number of bytes. -/
def natToBytesBE : Nat → Nat → List Nat
  | 0, _ => []
  | count + 1, n => natToBytesBE count (n >>> 8) ++ [n &&& 255]

/-- FIPS 180-4 padding: append 0x80, zeros, and the 64-bit bit length. -/
def padMessage (m : List Nat) : List Nat :=
  let len := m.length
  let zeros := (64 - (len + 9) % 64) % 64
  m ++ [128] ++ List.replicate zeros 0 ++ natToBytesBE 8 (len * 8)

/-- Pack bytes into big-endian 32-bit words. -/
def bytesToWords : List Nat → List Nat
  | b0 :: b1 :: b2 :: b3 :: rest =>
      (((b0 * 256 + b1) * 256 + b2) * 256 + b3) :: bytesToWords rest
  | _ => []

/-- Split a word list into 16-word blocks (fuel-driven). -/
def toBlocks : Nat → List Nat → List (List Nat)
  | 0, _ => []
  | _, [] => []
  | fuel + 1, ws => ws.take 16 :: toBlocks fuel (ws.drop 16)

/-- Extend a 16-word block by the given number of schedule words. -/
def extendW (w : List Nat) : Nat → List Nat
  | 0 => w
  | n + 1 =>
      let w2 := extendW w n
      let t := w2.length
      w2 ++ [(ssig1 (w2.getD (t - 2) 0) + w2.getD (t - 7) 0 +
              ssig0 (w2.getD (t - 15) 0) + w2.getD (t - 16) 0) &&& mask32]

/-- One SHA-256 round. -/
def round8 (s : Hash8) (kt wt : Nat) : Hash8 :=
  let t1 := (s.h + bsig1 s.e + chFn s.e s.f s.g + kt + wt) &&& mask32
  let t2 := (bsig0 s.a + majFn s.a s.b s.c) &&& mask32
  ⟨(t1 + t2) &&& mask32, s.a, s.b, s.c, (s.d + t1) &&& mask32, s.e, s.f, s.g⟩

/-- SHA-256 compression of one block. -/
def compress (h0 : Hash8) (block : List Nat) : Hash8 :=
  let w := extendW block 48
  let s := (List.zip K256 w).foldl (fun st p => round8 st p.1 p.2) h0
  ⟨(h0.a + s.a) &&& mask32, (h0.b + s.b) &&& mask32, (h0.c + s.c) &&& mask32,
   (h0.d + s.d) &&& mask32, (h0.e + s.e) &&& mask32, (h0.f + s.f) &&& mask32,
   (h0.g + s.g) &&& mask32, (h0.h + s.h) &&& mask32⟩

/-- Assemble the final eight registers into the 256-bit digest value. -/
def digestNat (h : Hash8) : Nat :=
  [h.a, h.b, h.c, h.d, h.e, h.f, h.g, h.h].foldl (fun acc x => acc * 4294967296 + x) 0

/-- SHA-256 of a byte list, as the 256-bit digest value. -/
def sha256Nat (m : List Nat) : Nat :=
  let words := bytesToWords (padMessage m)
  digestNat ((toBlocks words.length words).foldl compress initH)

/-- SHA-256 of a byte list, as the 32 digest bytes. -/
def sha256Bytes (m : List Nat) : List Nat := natToBytesBE 32 (sha256Nat m)

/-- Lowercase hex rendering of a Nat on a fixed number of digits
(hexdigest()). -/
def natToHex : Nat → Nat → String
  | 0, _ => ""
  | count + 1, n => natToHex count (n / 16) ++ String.singleton (hexDigitChar (n % 16))

/-- HMAC-SHA256 (RFC 2104), as the 256-bit digest value:
hmac.new(key, msg, hashlib.sha256). -/
def hmacSha256Nat (key msg : List Nat) : Nat :=
  let k0 := if 64 < key.length then sha256Bytes key else key
  let kpad := k0 ++ List.replicate (64 - k0.length) 0
  sha256Nat ((kpad.map (fun b => b ^^^ 92)) ++
             sha256Bytes ((kpad.map (fun b => b ^^^ 54)) ++ msg))

/-! ## Signer: generate_webhook_signature / verify_webhook_signature -/

/-- The payload argument of generate_webhook_signature: the source accepts a
dict (serialized canonically first), a str (utf-8 encoded), or bytes. -/
inductive SigPayload where
  | dict (j : Json) : SigPayload
  | str (s : String) : SigPayload
  | bytes (b : List Nat) : SigPayload

/-- The bytes generate_webhook_signature feeds to HMAC after its isinstance
conversions: json.dumps(payload, separators=(',', ':'), sort_keys=True) for
a dict, then utf-8 encoding for str. -/
def sigPayloadBytes : SigPayload → List Nat
  | .dict j => utf8Bytes (jsonDumpsCanonical j)
  | .str s => utf8Bytes s
  | .bytes b => b

/-- generate_webhook_signature: hex digest of
hmac.new(secret.encode('utf-8'), payload, hashlib.sha256). -/
def generate_webhook_signature (payload : SigPayload) (secret : String) : String :=
  natToHex 64 (hmacSha256Nat (utf8Bytes secret) (sigPayloadBytes payload))

/-- verify_webhook_signature: hmac.compare_digest(signature, expected),
where expected recomputes the signature over the payload. -/
def verify_webhook_signature (payload : SigPayload) (signature secret : String) : Bool :=
  signature == generate_webhook_signature payload secret

/-! ## Data model (tenants/models.py, webhooks/models.py)

The database is explicit state.  Time is an abstract Nat clock supplied by
the caller (timezone.now()); datetime.isoformat on that abstract clock is
modelled by an injective rendering to a string. -/

/-- The tenant webhook configuration consumed by the delivery code
(Tenant.webhook_url, Tenant.webhook_secret).  webhook_url is nullable and
may be blank; webhook_secret is always populated because Tenant.save
generates one when it is missing. -/
structure Tenant where
  id : Nat
  webhook_url : Option String
  webhook_secret : String
deriving DecidableEq

/-- tenants.models.TenantWebhookEvent: one row per outbound event. -/
structure TenantWebhookEvent where
  id : Nat
  tenant_id : Nat
  event_type : String
  payload_json : Json
  status : String
  attempts : Nat
  response_code : Option Int
  response_body : Option String
  sent_at : Option Nat
  succeeded_at : Option Nat
  created_at : Nat
  idempotency_key : String

/-- tenants.models.TenantWebhookLog: one row per delivery attempt. -/
structure TenantWebhookLog where
  id : Nat
  webhook_event_id : Nat
  attempt_number : Nat
  request_url : String
  request_headers : List (String × String)
  request_body : Json
  response_code : Option Int
  response_headers : List (String × String)
  response_body : Option String
  error_message : Option String
  duration_ms : Nat
  created_at : Nat

/-- The database state the delivery subsystem reads and writes: tenant
rows, event rows, log rows, and the autoincrement counters for the two
primary keys. -/
structure DB where
  tenants : List Tenant
  events : List TenantWebhookEvent
  logs : List TenantWebhookLog
  nextEventId : Nat
  nextLogId : Nat

/-- The empty initial database (fresh autoincrement counters), with the
given tenant configuration rows. -/
def initDB (tenants : List Tenant) : DB :=
  ⟨tenants, [], [], 1, 1⟩

/-- TenantWebhookEvent.objects.get(id=...) (None when absent). -/
def findEvent (db : DB) (eventId : Nat) : Option TenantWebhookEvent :=
  db.events.find? (fun e => e.id == eventId)

/-- The select_related('tenant') join: the tenant row of an event. -/
def findTenant (db : DB) (tenantId : Nat) : Option Tenant :=
  db.tenants.find? (fun t => t.id == tenantId)

/-- An UPDATE of one event row (model .save() on an existing row): every
stored row with the same primary key is replaced. -/
def replaceEvent (ev e : TenantWebhookEvent) : TenantWebhookEvent :=
  if e.id == ev.id then ev else e

/-- webhook_event.save(): persist the mutated event row. -/
def saveEvent (db : DB) (ev : TenantWebhookEvent) : DB :=
  { db with events := db.events.map (replaceEvent ev) }

/-- TenantWebhookLog.objects.create(...): append a log row and bump the
autoincrement counter. -/
def appendLog (db : DB) (log : TenantWebhookLog) : DB :=
  { db with logs := db.logs ++ [log], nextLogId := db.nextLogId + 1 }

/-- The log rows of one event, in insertion order. -/
def logsFor (db : DB) (eventId : Nat) : List TenantWebhookLog :=
  db.logs.filter (fun l => l.webhook_event_id == eventId)

/-- `not tenant.webhook_url`: the URLField is falsy when NULL or blank. -/
def tenantUrlMissing (t : Tenant) : Bool :=
  match t.webhook_url with
  | none => true
  | some u => u == ""

/-- datetime.isoformat() on the abstract clock; only injectivity of the
rendering matters to the claims. -/
def isoTime (t : Nat) : String := toString t

/-! ## Delivery Engine (webhook_delivery.deliver_webhook_to_tenant) -/

/-- The outcome of the outbound requests.post call, supplied by the
environment: an HTTP response (any status code), requests.exceptions.Timeout,
requests.exceptions.ConnectionError, or any other exception. -/
inductive HttpOutcome where
  | response (code : Int) (body : String) (headers : List (String × String)) : HttpOutcome
  | timeout : HttpOutcome
  | connectionError (msg : String) : HttpOutcome
  | otherException (msg : String) : HttpOutcome

/-- Whether the outcome is an HTTP response with a 2xx status code. -/
def isSuccessOutcome : HttpOutcome → Bool
  | .response code _ _ => decide (200 ≤ code ∧ code < 300)
  | _ => false

/-- MAX_ATTEMPTS in deliver_webhook_to_tenant. -/
def MAX_ATTEMPTS : Nat := 3

/-- The webhook envelope built by deliver_webhook_to_tenant (insertion
order id, event, created_at, data). -/
def webhookEnvelope (ev : TenantWebhookEvent) : Json :=
  .obj (.cons "id" (.num ev.id)
         (.cons "event" (.str ev.event_type)
           (.cons "created_at" (.str (isoTime ev.created_at))
             (.cons "data" ev.payload_json .nil))))

/-- The outbound request headers. -/
def webhookHeaders (ev : TenantWebhookEvent) (signature : String) : List (String × String) :=
  [("Content-Type", "application/json"),
   ("X-Webhook-Signature", signature),
   ("X-Webhook-Event-Type", ev.event_type),
   ("X-Webhook-Event-Id", toString ev.id),
   ("User-Agent", "BillingPlatform-Webhooks/1.0")]

/-- The raw body bytes requests.post(url, json=full_payload, ...) puts on
the wire: json.dumps(full_payload) with default separators and key order,
utf-8 encoded.  Rendered here as the string; the wire bytes are its utf-8
encoding. -/
def transmittedRequestBody (ev : TenantWebhookEvent) : String :=
  jsonDumpsDefault (webhookEnvelope ev)

/-- The try/except classification of the requests.post outcome in
deliver_webhook_to_tenant: the mutated event row plus the local variables
error_message, response_code, response_body, response_headers. -/
structure AttemptResult where
  event : TenantWebhookEvent
  error : Option String
  code : Option Int
  body : Option String
  headers : List (String × String)

/-- Lines 120-155 of webhook_delivery.py: a 2xx response marks the event
sent and stamps succeeded_at; any other response, a timeout, a connection
error, or any other exception marks it pending with an error message.  The
response body is truncated to 5000 characters. -/
def classifyOutcome (ev : TenantWebhookEvent) (now : Nat) : HttpOutcome → AttemptResult
  | .response code body hs =>
      let body5 := body.take 5000
      if 200 ≤ code ∧ code < 300 then
        { event := { ev with status := "sent", succeeded_at := some now,
                             response_code := some code, response_body := some body5 },
          error := none, code := some code, body := some body5, headers := hs }
      else
        { event := { ev with status := "pending",
                             response_code := some code, response_body := some body5 },
          error := some ("HTTP " ++ toString code ++ ": " ++ body5),
          code := some code, body := some body5, headers := hs }
  | .timeout =>
      { event := { ev with status := "pending" },
        error := some "Request timed out after 30 seconds",
        code := none, body := none, headers := [] }
  | .connectionError m =>
      { event := { ev with status := "pending" },
        error := some ("Connection error: " ++ m),
        code := none, body := none, headers := [] }
  | .otherException m =>
      { event := { ev with status := "pending" },
        error := some ("Unexpected error: " ++ m),
        code := none, body := none, headers := [] }

/-- Lines 81-88 of webhook_delivery.py: the attempt counter is incremented,
status set to sending, and sent_at stamped on the first attempt. -/
def sendingEvent (ev : TenantWebhookEvent) (now : Nat) : TenantWebhookEvent :=
  { ev with attempts := ev.attempts + 1,
            status := "sending",
            sent_at := if ev.attempts + 1 == 1 then some now else ev.sent_at }

/-- The TenantWebhookLog row created after an attempt: the signed request
actually issued (URL, headers with the HMAC signature over the canonical
envelope serialization, envelope body) and the classified outcome. -/
def attemptLogRow (db2 : DB) (tenant : Tenant) (ev1 : TenantWebhookEvent)
    (res : AttemptResult) (now durationMs : Nat) : TenantWebhookLog :=
  { id := db2.nextLogId,
    webhook_event_id := ev1.id,
    attempt_number := res.event.attempts,
    request_url := tenant.webhook_url.getD "",
    request_headers := webhookHeaders ev1
      (generate_webhook_signature (.dict (webhookEnvelope ev1)) tenant.webhook_secret),
    request_body := webhookEnvelope ev1,
    response_code := res.code,
    response_headers := res.headers,
    response_body := res.body,
    error_message := res.error,
    duration_ms := durationMs,
    created_at := now }

/-- deliver_webhook_to_tenant(webhook_event_id): missing event is a no-op;
a tenant without a webhook URL marks the event failed; attempts at the cap
mark it failed; otherwise the attempt counter is incremented, the sending
state persisted, the signed request issued, the outcome classified and
persisted, and exactly one log row appended. -/
def deliver_webhook_to_tenant (db : DB) (webhook_event_id : Nat) (now : Nat)
    (outcome : HttpOutcome) (durationMs : Nat) : DB :=
  match findEvent db webhook_event_id with
  | none => db
  | some webhook_event =>
    match findTenant db webhook_event.tenant_id with
    | none => db
    | some tenant =>
      if tenantUrlMissing tenant then
        saveEvent db { webhook_event with status := "failed" }
      else if MAX_ATTEMPTS ≤ webhook_event.attempts then
        saveEvent db { webhook_event with status := "failed" }
      else
        let ev1 := sendingEvent webhook_event now
        let db1 := saveEvent db ev1
        let res := classifyOutcome ev1 now outcome
        let db2 := saveEvent db1 res.event
        appendLog db2 (attemptLogRow db2 tenant ev1 res now durationMs)

/-! ## Queueing / Idempotency Gate (webhook_delivery.queue_webhook_event) -/

/-- The TenantWebhookEvent row TenantWebhookEvent.objects.create builds in
queue_webhook_event: status pending, attempts 0, no delivery fields. -/
def enqueuedEvent (db : DB) (tenant_id : Nat) (event_type : String)
    (payload : Json) (idempotency_key : String) (now : Nat) : TenantWebhookEvent :=
  { id := db.nextEventId, tenant_id := tenant_id, event_type := event_type,
    payload_json := payload, status := "pending", attempts := 0,
    response_code := none, response_body := none, sent_at := none,
    succeeded_at := none, created_at := now,
    idempotency_key := idempotency_key }

/-- An INSERT of a fresh event row, bumping the autoincrement counter. -/
def withNewEvent (db : DB) (ev : TenantWebhookEvent) : DB :=
  { db with events := db.events ++ [ev], nextEventId := db.nextEventId + 1 }

/-- queue_webhook_event(tenant, event_type, payload, idempotency_key): an
existing row with the idempotency key makes the call a no-op returning None;
otherwise a pending event row with attempts=0 is created and delivery is
attempted synchronously once.  Returns the created event id. -/
def queue_webhook_event (db : DB) (tenant_id : Nat) (event_type : String)
    (payload : Json) (idempotency_key : String) (now : Nat)
    (outcome : HttpOutcome) (durationMs : Nat) : Option Nat × DB :=
  if db.events.any (fun e => e.idempotency_key == idempotency_key) then
    (none, db)
  else
    let ev := enqueuedEvent db tenant_id event_type payload idempotency_key now
    let db1 := withNewEvent db ev
    (some ev.id, deliver_webhook_to_tenant db1 ev.id now outcome durationMs)

/-! ## Management API (webhook_management_views.retry_webhook_event) -/

/-- The responses of the manual-retry endpoint: 404 when the event does not
belong to the tenant, 400 when it was already delivered, 200 otherwise. -/
inductive RetryResponse where
  | notFound : RetryResponse
  | badRequest : RetryResponse
  | ok (event_id : Nat) (status : String) (attempts : Nat) : RetryResponse
deriving DecidableEq

/-- retry_webhook_event(request, event_id): 404 when the event is not the
tenant's; 400 when status == 'sent'; otherwise reset status to pending and
attempts to 0, persist, deliver once, and report the refreshed row. -/
def retry_webhook_event (db : DB) (tenant_id : Nat) (event_id : Nat) (now : Nat)
    (outcome : HttpOutcome) (durationMs : Nat) : RetryResponse × DB :=
  match db.events.find? (fun e => e.id == event_id && e.tenant_id == tenant_id) with
  | none => (.notFound, db)
  | some event =>
    if event.status == "sent" then
      (.badRequest, db)
    else
      let ev1 := { event with status := "pending", attempts := 0 }
      let db1 := saveEvent db ev1
      let db2 := deliver_webhook_to_tenant db1 event.id now outcome durationMs
      let refreshed := findEvent db2 event.id
      (.ok event.id ((refreshed.map (fun e => e.status)).getD "")
           ((refreshed.map (fun e => e.attempts)).getD 0), db2)

/-! ## Retry Scheduler (core/tasks.py) -/

/-- webhooks.models.WebhookEvent, the event model core/tasks.py operates
on (distinct from TenantWebhookEvent; statuses pending/sent/failed/retrying). -/
structure WebhookEvent where
  id : Nat
  tenant_id : Nat
  event_type : String
  payload : Json
  status : String
  attempts : Nat

/-- core.tasks.retry_failed_webhooks: filters events with
status__in=['failed', 'retrying'] and attempts__lt=3 and schedules
send_webhook_event.delay(event.id) for each.  The returned list is the
sequence of event ids handed to the delivery task, in queryset order. -/
def retry_failed_webhooks (events : List WebhookEvent) : List Nat :=
  ((events.filter (fun e => (e.status == "failed" || e.status == "retrying") &&
      e.attempts < 3)).map (fun e => e.id))

/-- The selection predicate claim C3 states, following the spec wording:
status in \x7bfailed, pending\x7d and attempts below the cap. -/
def claimedRetrySelection (e : WebhookEvent) : Bool :=
  (e.status == "failed" || e.status == "pending") && e.attempts < 3

/-! ## Transition systems

OpStep is the operation set claims C2 and C7 quantify over (enqueue,
deliver, manual retry, each with an arbitrary environment-chosen clock and
HTTP outcome).  EDStep restricts to enqueue and deliver; GuardedStep
restricts deliver to events that are not already sent, which is how the
repository invokes it (queue_webhook_event delivers a freshly created
pending event, retry_webhook_event delivers after rejecting sent events). -/

/-- One application of a public operation: enqueue, deliver, or manual
retry, with arbitrary arguments. -/
inductive OpStep : DB → DB → Prop where
  | enqueue (db : DB) (tid : Nat) (et : String) (pl : Json) (key : String)
      (now : Nat) (o : HttpOutcome) (dur : Nat) :
      OpStep db (queue_webhook_event db tid et pl key now o dur).2
  | deliver (db : DB) (eid now : Nat) (o : HttpOutcome) (dur : Nat) :
      OpStep db (deliver_webhook_to_tenant db eid now o dur)
  | manualRetry (db : DB) (tid eid now : Nat) (o : HttpOutcome) (dur : Nat) :
      OpStep db (retry_webhook_event db tid eid now o dur).2

/-- One enqueue or one deliver (no manual retry). -/
inductive EDStep : DB → DB → Prop where
  | enqueue (db : DB) (tid : Nat) (et : String) (pl : Json) (key : String)
      (now : Nat) (o : HttpOutcome) (dur : Nat) :
      EDStep db (queue_webhook_event db tid et pl key now o dur).2
  | deliver (db : DB) (eid now : Nat) (o : HttpOutcome) (dur : Nat) :
      EDStep db (deliver_webhook_to_tenant db eid now o dur)

/-- One enqueue, one manual retry, or one deliver of an event that is not
already sent (the only way the repository's call sites invoke deliver). -/
inductive GuardedStep : DB → DB → Prop where
  | enqueue (db : DB) (tid : Nat) (et : String) (pl : Json) (key : String)
      (now : Nat) (o : HttpOutcome) (dur : Nat) :
      GuardedStep db (queue_webhook_event db tid et pl key now o dur).2
  | manualRetry (db : DB) (tid eid now : Nat) (o : HttpOutcome) (dur : Nat) :
      GuardedStep db (retry_webhook_event db tid eid now o dur).2
  | deliverNotSent (db : DB) (eid now : Nat) (o : HttpOutcome) (dur : Nat)
      (hguard : ∀ e ∈ db.events, e.id = eid → e.status ≠ "sent") :
      GuardedStep db (deliver_webhook_to_tenant db eid now o dur)

/-- States reachable from an initial database through the public
operations. -/
def OpReachable (tenants : List Tenant) (db : DB) : Prop :=
  Relation.ReflTransGen OpStep (initDB tenants) db

/-- States reachable through enqueue and deliver alone. -/
def EDReachable (tenants : List Tenant) (db : DB) : Prop :=
  Relation.ReflTransGen EDStep (initDB tenants) db

/-- States reachable through enqueue, manual retry, and guarded deliver. -/
def GuardedReachable (tenants : List Tenant) (db : DB) : Prop :=
  Relation.ReflTransGen GuardedStep (initDB tenants) db

/-! ## Invariant statements -/

/-- Primary keys are below the autoincrement counter and log rows reference
only already-allocated event ids. -/
def DBWellFormed (db : DB) : Prop :=
  (∀ e ∈ db.events, e.id < db.nextEventId) ∧
  (∀ l ∈ db.logs, l.webhook_event_id < db.nextEventId)

/-- Claim C2's log/attempt invariant: each event's log rows carry attempt
numbers 1, 2, ..., attempts in order (hence in particular there are exactly
`attempts` of them, one per attempt number, contiguous from 1). -/
def LogsMatchAttempts (db : DB) : Prop :=
  ∀ e ∈ db.events, ((logsFor db e.id).map (fun l => l.attempt_number)) =
    List.range' 1 e.attempts

/-- Claim C7's invariant: succeeded_at is set exactly on sent events. -/
def SucceededIffSent (db : DB) : Prop :=
  ∀ e ∈ db.events, (e.succeeded_at ≠ none ↔ e.status = "sent")

/-! ## Bounds predicate for the hash registers -/

/-- All eight registers fit in 32 bits. -/
def hashBounded (h : Hash8) : Prop :=
  h.a < 4294967296 ∧ h.b < 4294967296 ∧ h.c < 4294967296 ∧ h.d < 4294967296 ∧
  h.e < 4294967296 ∧ h.f < 4294967296 ∧ h.g < 4294967296 ∧ h.h < 4294967296

/-! ## Concrete fixtures used by witnesses and counterexamples -/

/-- A tenant with a configured webhook destination and secret. -/
def exTenant : Tenant :=
  { id := 1, webhook_url := some "https://example.com/hook",
    webhook_secret := "whsec_test" }

/-- A tenant with no webhook URL configured. -/
def exNoUrlTenant : Tenant :=
  { id := 2, webhook_url := none, webhook_secret := "whsec_test" }

/-- A small event payload. -/
def exPayload : Json := .obj (.cons "amount" (.num 100) .nil)

/-- The database after one enqueue against exTenant whose delivery attempt
timed out: the event is pending with attempts = 1 and one log row. -/
def c2WitnessDB : DB :=
  (queue_webhook_event (initDB [exTenant]) 1 "payment.succeeded" exPayload "k2"
    0 .timeout 10).2

/-- The stored event row of c2WitnessDB. -/
def c2WitnessEvent : TenantWebhookEvent :=
  { id := 1, tenant_id := 1, event_type := "payment.succeeded",
    payload_json := exPayload, status := "pending", attempts := 1,
    response_code := none, response_body := none, sent_at := some 0,
    succeeded_at := none, created_at := 0, idempotency_key := "k2" }

/-- c2WitnessDB after a manual retry whose delivery attempt also timed out:
attempts was reset to 0 and incremented back to 1, while a second log row
with attempt_number 1 was appended. -/
def c2BadDB : DB :=
  (retry_webhook_event c2WitnessDB 1 1 1 .timeout 10).2

/-- The database after one enqueue against exTenant answered with HTTP 200:
the event is sent with succeeded_at set. -/
def c7WitnessDB : DB :=
  (queue_webhook_event (initDB [exTenant]) 1 "payment.succeeded" exPayload "k7"
    0 (.response 200 "" []) 10).2

/-- The stored event row of c7WitnessDB. -/
def c7WitnessEvent : TenantWebhookEvent :=
  { id := 1, tenant_id := 1, event_type := "payment.succeeded",
    payload_json := exPayload, status := "sent", attempts := 1,
    response_code := some 200, response_body := some (String.take "" 5000),
    sent_at := some 0, succeeded_at := some 0, created_at := 0,
    idempotency_key := "k7" }

/-- c7WitnessDB after a further direct deliver call that timed out: the
sent event is re-attempted, returns to pending, and keeps succeeded_at. -/
def c7BadDB : DB :=
  deliver_webhook_to_tenant c7WitnessDB 1 1 .timeout 5

/-- A pending retry-scheduler event with no attempts. -/
def c3PendingEvent : WebhookEvent :=
  { id := 1, tenant_id := 1, event_type := "payment.succeeded",
    payload := exPayload, status := "pending", attempts := 0 }

/-- A failed retry-scheduler event below the cap. -/
def c3FailedEvent : WebhookEvent :=
  { id := 2, tenant_id := 1, event_type := "payment.failed",
    payload := exPayload, status := "failed", attempts := 1 }

/-- An event whose attempt counter has reached MAX_ATTEMPTS. -/
def c6Event : TenantWebhookEvent :=
  { id := 1, tenant_id := 1, event_type := "payment.succeeded",
    payload_json := exPayload, status := "pending", attempts := 3,
    response_code := some 500, response_body := some "err", sent_at := some 0,
    succeeded_at := none, created_at := 0, idempotency_key := "k6" }

/-- A database holding c6Event for exTenant. -/
def c6DB : DB := ⟨[exTenant], [c6Event], [], 2, 1⟩

/-- A pending event owned by the tenant without a webhook URL. -/
def c8Event : TenantWebhookEvent :=
  { id := 1, tenant_id := 2, event_type := "payment.succeeded",
    payload_json := exPayload, status := "pending", attempts := 0,
    response_code := none, response_body := none, sent_at := none,
    succeeded_at := none, created_at := 0, idempotency_key := "k8" }

/-- A database holding c8Event for exNoUrlTenant. -/
def c8DB : DB := ⟨[exNoUrlTenant], [c8Event], [], 2, 1⟩

/-- A fresh pending event of exTenant, for the delivery-attempt witness. -/
def c4Event : TenantWebhookEvent :=
  { id := 1, tenant_id := 1, event_type := "payment.succeeded",
    payload_json := exPayload, status := "pending", attempts := 0,
    response_code := none, response_body := none, sent_at := none,
    succeeded_at := none, created_at := 0, idempotency_key := "k4" }

/-- A database holding c4Event for exTenant. -/
def c4DB : DB := ⟨[exTenant], [c4Event], [], 2, 1⟩

/-- A failed event with exhausted attempts, for the manual-retry witness. -/
def c10Event : TenantWebhookEvent :=
  { id := 1, tenant_id := 1, event_type := "payment.succeeded",
    payload_json := exPayload, status := "failed", attempts := 3,
    response_code := some 500, response_body := some "err", sent_at := some 0,
    succeeded_at := none, created_at := 0, idempotency_key := "k10" }

/-- A database holding c10Event for exTenant. -/
def c10DB : DB := ⟨[exTenant], [c10Event], [], 2, 1⟩

/-- The event deliver_webhook_to_tenant builds and signs in the C1
counterexample: the sending-state row of an enqueued event. -/
def c1Event : TenantWebhookEvent :=
  { id := 1, tenant_id := 1, event_type := "payment.succeeded",
    payload_json := exPayload, status := "sending", attempts := 1,
    response_code := none, response_body := none, sent_at := some 0,
    succeeded_at := none, created_at := 0, idempotency_key := "stripe_evt_1" }

/-- The n-th secret in an infinite family of pairwise distinct secrets. -/
def aSecret (n : Nat) : String := String.mk (List.replicate n 'a')

/-- Claim C9 as stated: the signature round-trip always verifies, any
single-byte mutation of a bytes payload fails verification, and any
different secret fails verification. -/
def claimC9Statement : Prop :=
  (∀ (p : SigPayload) (s : String),
      verify_webhook_signature p (generate_webhook_signature p s) s = true) ∧
  (∀ (b b2 : List Nat) (i : Nat) (s : String),
      b.length = b2.length → i < b.length →
      (∀ j, j ≠ i → b.getD j 0 = b2.getD j 0) → b.getD i 0 ≠ b2.getD i 0 →
      verify_webhook_signature (.bytes b2) (generate_webhook_signature (.bytes b) s) s
        = false) ∧
  (∀ (p : SigPayload) (s s2 : String), s ≠ s2 →
      verify_webhook_signature p (generate_webhook_signature p s) s2 = false)

/-! ## Basic lemmas about the store operations -/

theorem replaceEvent_id (ev e : TenantWebhookEvent) : (replaceEvent ev e).id = e.id := by
  unfold replaceEvent
  split
  · rename_i h
    exact (eq_of_beq h).symm
  · rfl

theorem saveEvent_logs (db : DB) (ev : TenantWebhookEvent) :
    (saveEvent db ev).logs = db.logs := rfl

theorem saveEvent_next (db : DB) (ev : TenantWebhookEvent) :
    (saveEvent db ev).nextEventId = db.nextEventId := rfl

theorem saveEvent_events (db : DB) (ev : TenantWebhookEvent) :
    (saveEvent db ev).events = db.events.map (replaceEvent ev) := rfl

theorem appendLog_events (db : DB) (l : TenantWebhookLog) :
    (appendLog db l).events = db.events := rfl

theorem appendLog_next (db : DB) (l : TenantWebhookLog) :
    (appendLog db l).nextEventId = db.nextEventId := rfl

theorem appendLog_logs (db : DB) (l : TenantWebhookLog) :
    (appendLog db l).logs = db.logs ++ [l] := rfl

theorem findEvent_id {db : DB} {eid : Nat} {ev : TenantWebhookEvent}
    (h : findEvent db eid = some ev) : ev.id = eid := by
  unfold findEvent at h
  have hp := @List.find?_some _ (fun e => e.id == eid) ev db.events h
  exact eq_of_beq hp

theorem findEvent_mem {db : DB} {eid : Nat} {ev : TenantWebhookEvent}
    (h : findEvent db eid = some ev) : ev ∈ db.events := by
  unfold findEvent at h
  exact List.mem_of_find?_eq_some h

theorem findEvent_saveEvent (db : DB) (ev : TenantWebhookEvent) (i : Nat) :
    findEvent (saveEvent db ev) i = (findEvent db i).map (replaceEvent ev) := by
  unfold findEvent saveEvent
  rw [List.find?_map]
  have hf : ((fun e : TenantWebhookEvent => e.id == i) ∘ replaceEvent ev) =
      (fun e : TenantWebhookEvent => e.id == i) := by
    funext e
    simp [Function.comp, replaceEvent_id]
  rw [hf]

theorem findEvent_appendLog (db : DB) (l : TenantWebhookLog) (i : Nat) :
    findEvent (appendLog db l) i = findEvent db i := rfl

theorem logsFor_saveEvent (db : DB) (ev : TenantWebhookEvent) (i : Nat) :
    logsFor (saveEvent db ev) i = logsFor db i := rfl

theorem logsFor_appendLog (db : DB) (l : TenantWebhookLog) (i : Nat) :
    logsFor (appendLog db l) i =
      logsFor db i ++ (if l.webhook_event_id == i then [l] else []) := by
  unfold logsFor appendLog
  rw [List.filter_append]
  congr 1
  cases h : (l.webhook_event_id == i) <;> simp [List.filter, h]

/-! ## Lemmas about the outcome classification -/

theorem classify_id (ev : TenantWebhookEvent) (now : Nat) (o : HttpOutcome) :
    (classifyOutcome ev now o).event.id = ev.id := by
  cases o with
  | response code body hs =>
      simp only [classifyOutcome]
      split <;> rfl
  | timeout => rfl
  | connectionError m => rfl
  | otherException m => rfl

theorem classify_attempts (ev : TenantWebhookEvent) (now : Nat) (o : HttpOutcome) :
    (classifyOutcome ev now o).event.attempts = ev.attempts := by
  cases o with
  | response code body hs =>
      simp only [classifyOutcome]
      split <;> rfl
  | timeout => rfl
  | connectionError m => rfl
  | otherException m => rfl

theorem classify_tenant (ev : TenantWebhookEvent) (now : Nat) (o : HttpOutcome) :
    (classifyOutcome ev now o).event.tenant_id = ev.tenant_id := by
  cases o with
  | response code body hs =>
      simp only [classifyOutcome]
      split <;> rfl
  | timeout => rfl
  | connectionError m => rfl
  | otherException m => rfl

theorem classify_key (ev : TenantWebhookEvent) (now : Nat) (o : HttpOutcome) :
    (classifyOutcome ev now o).event.idempotency_key = ev.idempotency_key := by
  cases o with
  | response code body hs =>
      simp only [classifyOutcome]
      split <;> rfl
  | timeout => rfl
  | connectionError m => rfl
  | otherException m => rfl

theorem classify_status (ev : TenantWebhookEvent) (now : Nat) (o : HttpOutcome) :
    (classifyOutcome ev now o).event.status =
      (if isSuccessOutcome o then "sent" else "pending") := by
  cases o with
  | response code body hs =>
      simp only [classifyOutcome, isSuccessOutcome]
      split
      · rename_i h
        simp [h]
      · rename_i h
        simp [h]
  | timeout => rfl
  | connectionError m => rfl
  | otherException m => rfl

theorem classify_succeeded (ev : TenantWebhookEvent) (now : Nat) (o : HttpOutcome) :
    (classifyOutcome ev now o).event.succeeded_at =
      (if isSuccessOutcome o then some now else ev.succeeded_at) := by
  cases o with
  | response code body hs =>
      simp only [classifyOutcome, isSuccessOutcome]
      split
      · rename_i h
        simp [h]
      · rename_i h
        simp [h]
  | timeout => rfl
  | connectionError m => rfl
  | otherException m => rfl

theorem classify_error_some (ev : TenantWebhookEvent) (now : Nat) (o : HttpOutcome)
    (h : isSuccessOutcome o = false) :
    ∃ msg, (classifyOutcome ev now o).error = some msg := by
  cases o with
  | response code body hs =>
      simp only [isSuccessOutcome, decide_eq_false_iff_not] at h
      simp only [classifyOutcome]
      rw [if_neg h]
      exact ⟨_, rfl⟩
  | timeout => exact ⟨_, rfl⟩
  | connectionError m => exact ⟨_, rfl⟩
  | otherException m => exact ⟨_, rfl⟩

/-! ## Master equations for deliver_webhook_to_tenant -/

theorem deliver_not_found {db : DB} {eid : Nat} (now : Nat) (o : HttpOutcome) (dur : Nat)
    (h : findEvent db eid = none) :
    deliver_webhook_to_tenant db eid now o dur = db := by
  simp only [deliver_webhook_to_tenant, h]

theorem deliver_no_tenant {db : DB} {eid : Nat} {ev : TenantWebhookEvent}
    (now : Nat) (o : HttpOutcome) (dur : Nat)
    (hev : findEvent db eid = some ev) (ht : findTenant db ev.tenant_id = none) :
    deliver_webhook_to_tenant db eid now o dur = db := by
  simp only [deliver_webhook_to_tenant, hev, ht]

theorem deliver_failed_save {db : DB} {eid : Nat} {ev : TenantWebhookEvent} {t : Tenant}
    (now : Nat) (o : HttpOutcome) (dur : Nat)
    (hev : findEvent db eid = some ev) (ht : findTenant db ev.tenant_id = some t)
    (h : tenantUrlMissing t = true ∨ MAX_ATTEMPTS ≤ ev.attempts) :
    deliver_webhook_to_tenant db eid now o dur =
      saveEvent db { ev with status := "failed" } := by
  by_cases hu : tenantUrlMissing t = true
  · simp only [deliver_webhook_to_tenant, hev, ht, hu, if_true]
  · have hcap : MAX_ATTEMPTS ≤ ev.attempts := by
      rcases h with h | h
      · exact absurd h hu
      · exact h
    have hu2 : tenantUrlMissing t = false := by
      revert hu
      cases tenantUrlMissing t <;> simp
    simp only [deliver_webhook_to_tenant, hev, ht, hu2, Bool.false_eq_true, if_false, hcap,
               if_true]

theorem deliver_attempt_eq {db : DB} {eid : Nat} {ev : TenantWebhookEvent} {t : Tenant}
    (now : Nat) (o : HttpOutcome) (dur : Nat)
    (hev : findEvent db eid = some ev) (ht : findTenant db ev.tenant_id = some t)
    (hu : tenantUrlMissing t = false) (hcap : ev.attempts < MAX_ATTEMPTS) :
    deliver_webhook_to_tenant db eid now o dur =
      appendLog
        (saveEvent (saveEvent db (sendingEvent ev now))
          (classifyOutcome (sendingEvent ev now) now o).event)
        (attemptLogRow
          (saveEvent (saveEvent db (sendingEvent ev now))
            (classifyOutcome (sendingEvent ev now) now o).event)
          t (sendingEvent ev now) (classifyOutcome (sendingEvent ev now) now o) now dur) := by
  have hnle : ¬ MAX_ATTEMPTS ≤ ev.attempts := Nat.not_le.mpr hcap
  simp only [deliver_webhook_to_tenant, hev, ht, hu, Bool.false_eq_true, if_false, hnle]

/-! ## Master equations for queue_webhook_event and retry_webhook_event -/

theorem queue_dup {db : DB} {key : String} (tid : Nat) (et : String) (pl : Json)
    (now : Nat) (o : HttpOutcome) (dur : Nat)
    (h : db.events.any (fun e => e.idempotency_key == key) = true) :
    queue_webhook_event db tid et pl key now o dur = (none, db) := by
  simp only [queue_webhook_event, h, if_true]

theorem queue_new {db : DB} {key : String} (tid : Nat) (et : String) (pl : Json)
    (now : Nat) (o : HttpOutcome) (dur : Nat)
    (h : db.events.any (fun e => e.idempotency_key == key) = false) :
    queue_webhook_event db tid et pl key now o dur =
      (some db.nextEventId,
       deliver_webhook_to_tenant
         (withNewEvent db (enqueuedEvent db tid et pl key now))
         db.nextEventId now o dur) := by
  simp only [queue_webhook_event, h, Bool.false_eq_true, if_false]
  rfl

theorem retry_not_found {db : DB} {tid eid : Nat} (now : Nat) (o : HttpOutcome) (dur : Nat)
    (h : db.events.find? (fun e => e.id == eid && e.tenant_id == tid) = none) :
    retry_webhook_event db tid eid now o dur = (.notFound, db) := by
  simp only [retry_webhook_event, h]

theorem retry_sent {db : DB} {tid eid : Nat} {event : TenantWebhookEvent}
    (now : Nat) (o : HttpOutcome) (dur : Nat)
    (hf : db.events.find? (fun e => e.id == eid && e.tenant_id == tid) = some event)
    (hs : event.status = "sent") :
    retry_webhook_event db tid eid now o dur = (.badRequest, db) := by
  have hb : (event.status == "sent") = true := beq_iff_eq.mpr hs
  simp only [retry_webhook_event, hf, hb, if_true]

theorem retry_go {db : DB} {tid eid : Nat} {event : TenantWebhookEvent}
    (now : Nat) (o : HttpOutcome) (dur : Nat)
    (hf : db.events.find? (fun e => e.id == eid && e.tenant_id == tid) = some event)
    (hs : event.status ≠ "sent") :
    (retry_webhook_event db tid eid now o dur).2 =
      deliver_webhook_to_tenant
        (saveEvent db { event with status := "pending", attempts := 0 })
        event.id now o dur := by
  have hb : (event.status == "sent") = false := by
    cases hq : (event.status == "sent")
    · rfl
    · exact absurd (eq_of_beq hq) hs
  simp only [retry_webhook_event, hf, hb, Bool.false_eq_true, if_false]

theorem retry_found_id {db : DB} {tid eid : Nat} {event : TenantWebhookEvent}
    (hf : db.events.find? (fun e => e.id == eid && e.tenant_id == tid) = some event) :
    event.id = eid := by
  have hp := @List.find?_some _ (fun e => e.id == eid && e.tenant_id == tid) event db.events hf
  have := (Bool.and_eq_true_iff.mp hp).1
  exact eq_of_beq this

theorem retry_found_mem {db : DB} {tid eid : Nat} {event : TenantWebhookEvent}
    (hf : db.events.find? (fun e => e.id == eid && e.tenant_id == tid) = some event) :
    event ∈ db.events :=
  List.mem_of_find?_eq_some hf

/-! ## replaceEvent case facts -/

theorem replaceEvent_eq {ev e : TenantWebhookEvent} (h : e.id = ev.id) :
    replaceEvent ev e = ev := by
  unfold replaceEvent
  simp [h]

theorem replaceEvent_ne {ev e : TenantWebhookEvent} (h : ¬ e.id = ev.id) :
    replaceEvent ev e = e := by
  unfold replaceEvent
  simp [h]

/-- Two stored events with the same id have equal attempt counters whenever
the log/attempt invariant holds (their log sets coincide). -/
theorem attempts_eq_of_same_id {db : DB} {e e2 : TenantWebhookEvent}
    (hlm : LogsMatchAttempts db) (he : e ∈ db.events) (he2 : e2 ∈ db.events)
    (hid : e.id = e2.id) : e.attempts = e2.attempts := by
  have h1 := hlm e he
  have h2 := hlm e2 he2
  rw [hid] at h1
  have h3 := h1.symm.trans h2
  have h4 := congrArg List.length h3
  simpa using h4

/-! ## Well-formedness preservation -/

theorem wf_saveEvent {db : DB} (ev : TenantWebhookEvent) (h : DBWellFormed db) :
    DBWellFormed (saveEvent db ev) := by
  obtain ⟨h1, h2⟩ := h
  constructor
  · intro e2 he2
    rw [saveEvent_events] at he2
    obtain ⟨e, he, rfl⟩ := List.mem_map.mp he2
    rw [saveEvent_next, replaceEvent_id]
    exact h1 e he
  · intro l hl
    rw [saveEvent_logs] at hl
    rw [saveEvent_next]
    exact h2 l hl

theorem wf_appendLog {db : DB} {l : TenantWebhookLog} (h : DBWellFormed db)
    (hl : l.webhook_event_id < db.nextEventId) : DBWellFormed (appendLog db l) := by
  obtain ⟨h1, h2⟩ := h
  constructor
  · intro e he
    rw [appendLog_events] at he
    rw [appendLog_next]
    exact h1 e he
  · intro l2 hl2
    rw [appendLog_logs] at hl2
    rw [appendLog_next]
    rcases List.mem_append.mp hl2 with hm | hm
    · exact h2 l2 hm
    · have : l2 = l := by simpa using hm
      subst this
      exact hl

theorem wf_deliver {db : DB} (eid now : Nat) (o : HttpOutcome) (dur : Nat)
    (h : DBWellFormed db) :
    DBWellFormed (deliver_webhook_to_tenant db eid now o dur) := by
  cases hev : findEvent db eid with
  | none => rw [deliver_not_found now o dur hev]; exact h
  | some ev =>
    cases ht : findTenant db ev.tenant_id with
    | none => rw [deliver_no_tenant now o dur hev ht]; exact h
    | some t =>
      by_cases hu : tenantUrlMissing t = true
      · rw [deliver_failed_save now o dur hev ht (Or.inl hu)]
        exact wf_saveEvent _ h
      · have hu2 : tenantUrlMissing t = false := Bool.eq_false_iff.mpr hu
        by_cases hcap : ev.attempts < MAX_ATTEMPTS
        · rw [deliver_attempt_eq now o dur hev ht hu2 hcap]
          apply wf_appendLog (wf_saveEvent _ (wf_saveEvent _ h))
          show (sendingEvent ev now).id < db.nextEventId
          exact h.1 ev (findEvent_mem hev)
        · rw [deliver_failed_save now o dur hev ht (Or.inr (Nat.not_lt.mp hcap))]
          exact wf_saveEvent _ h

theorem wf_withNewEvent {db : DB} {ev0 : TenantWebhookEvent} (h : DBWellFormed db)
    (hid : ev0.id = db.nextEventId) : DBWellFormed (withNewEvent db ev0) := by
  obtain ⟨h1, h2⟩ := h
  constructor
  · intro e he
    rcases List.mem_append.mp he with hm | hm
    · exact Nat.lt_trans (h1 e hm) (Nat.lt_succ_self _)
    · have : e = ev0 := by simpa using hm
      subst this
      rw [hid]
      exact Nat.lt_succ_self _
  · intro l hl
    exact Nat.lt_trans (h2 l hl) (Nat.lt_succ_self _)

theorem wf_enqueue {db : DB} (tid : Nat) (et : String) (pl : Json) (key : String)
    (now : Nat) (o : HttpOutcome) (dur : Nat) (h : DBWellFormed db) :
    DBWellFormed (queue_webhook_event db tid et pl key now o dur).2 := by
  by_cases hdup : db.events.any (fun e => e.idempotency_key == key) = true
  · rw [queue_dup tid et pl now o dur hdup]
    exact h
  · rw [queue_new tid et pl now o dur (Bool.eq_false_iff.mpr hdup)]
    exact wf_deliver _ now o dur (wf_withNewEvent h rfl)

theorem wf_retry {db : DB} (tid eid now : Nat) (o : HttpOutcome) (dur : Nat)
    (h : DBWellFormed db) :
    DBWellFormed (retry_webhook_event db tid eid now o dur).2 := by
  cases hf : db.events.find? (fun e => e.id == eid && e.tenant_id == tid) with
  | none => rw [retry_not_found now o dur hf]; exact h
  | some event =>
    by_cases hs : event.status = "sent"
    · rw [retry_sent now o dur hf hs]
      exact h
    · rw [retry_go now o dur hf hs]
      exact wf_deliver _ now o dur (wf_saveEvent _ h)

/-! ## Log/attempt invariant preservation -/

theorem lm_saveEvent {db : DB} {ev0 evn : TenantWebhookEvent}
    (hlm : LogsMatchAttempts db) (hmem : ev0 ∈ db.events)
    (hid : evn.id = ev0.id) (hatt : evn.attempts = ev0.attempts) :
    LogsMatchAttempts (saveEvent db evn) := by
  intro e2 he2
  rw [saveEvent_events] at he2
  obtain ⟨e, he, rfl⟩ := List.mem_map.mp he2
  rw [logsFor_saveEvent]
  by_cases hcase : e.id = evn.id
  · rw [replaceEvent_eq hcase, hid, hatt]
    exact hlm ev0 hmem
  · rw [replaceEvent_ne hcase]
    exact hlm e he

theorem range_one_concat (n : Nat) :
    List.range' 1 (n + 1) = List.range' 1 n ++ [n + 1] := by
  rw [List.range'_concat]
  simp [Nat.add_comm]

theorem lm_deliver {db : DB} (eid now : Nat) (o : HttpOutcome) (dur : Nat)
    (hlm : LogsMatchAttempts db) :
    LogsMatchAttempts (deliver_webhook_to_tenant db eid now o dur) := by
  cases hev : findEvent db eid with
  | none => rw [deliver_not_found now o dur hev]; exact hlm
  | some ev =>
    cases ht : findTenant db ev.tenant_id with
    | none => rw [deliver_no_tenant now o dur hev ht]; exact hlm
    | some t =>
      have hmem : ev ∈ db.events := findEvent_mem hev
      by_cases hu : tenantUrlMissing t = true
      · rw [deliver_failed_save now o dur hev ht (Or.inl hu)]
        exact lm_saveEvent hlm hmem rfl rfl
      · have hu2 : tenantUrlMissing t = false := Bool.eq_false_iff.mpr hu
        by_cases hcap : ev.attempts < MAX_ATTEMPTS
        · rw [deliver_attempt_eq now o dur hev ht hu2 hcap]
          intro e2 he2
          rw [appendLog_events, saveEvent_events, saveEvent_events] at he2
          obtain ⟨e3, he3, rfl⟩ := List.mem_map.mp he2
          obtain ⟨e, he, rfl⟩ := List.mem_map.mp he3
          have hrowid : (attemptLogRow
              (saveEvent (saveEvent db (sendingEvent ev now))
                (classifyOutcome (sendingEvent ev now) now o).event)
              t (sendingEvent ev now) (classifyOutcome (sendingEvent ev now) now o)
              now dur).webhook_event_id = ev.id := rfl
          by_cases hcase : e.id = ev.id
          · have h1 : replaceEvent (sendingEvent ev now) e = sendingEvent ev now :=
              replaceEvent_eq hcase
            have h2 : replaceEvent (classifyOutcome (sendingEvent ev now) now o).event
                (sendingEvent ev now) = (classifyOutcome (sendingEvent ev now) now o).event := by
              apply replaceEvent_eq
              rw [classify_id]
            rw [h1, h2]
            rw [logsFor_appendLog, logsFor_saveEvent, logsFor_saveEvent]
            rw [classify_id, classify_attempts]
            have hsid : (sendingEvent ev now).id = ev.id := rfl
            have hsat : (sendingEvent ev now).attempts = ev.attempts + 1 := rfl
            rw [hsid, hsat]
            rw [hrowid]
            have hbeq : (ev.id == ev.id) = true := beq_iff_eq.mpr rfl
            rw [hbeq, if_pos rfl]
            rw [List.map_append]
            rw [hlm ev hmem]
            rw [range_one_concat]
            congr 1
            simp only [List.map_cons, List.map_nil]
            have hnum : (attemptLogRow
                (saveEvent (saveEvent db (sendingEvent ev now))
                  (classifyOutcome (sendingEvent ev now) now o).event)
                t (sendingEvent ev now) (classifyOutcome (sendingEvent ev now) now o)
                now dur).attempt_number = ev.attempts + 1 := by
              show (classifyOutcome (sendingEvent ev now) now o).event.attempts = ev.attempts + 1
              rw [classify_attempts]
              rfl
            rw [hnum]
          · have h1 : replaceEvent (sendingEvent ev now) e = e := replaceEvent_ne hcase
            have h2 : replaceEvent (classifyOutcome (sendingEvent ev now) now o).event e = e := by
              apply replaceEvent_ne
              rw [classify_id]
              exact hcase
            rw [h1, h2]
            rw [logsFor_appendLog, logsFor_saveEvent, logsFor_saveEvent]
            rw [hrowid]
            have hbeq : (ev.id == e.id) = false := by
              cases hq : (ev.id == e.id)
              · rfl
              · exact absurd (eq_of_beq hq).symm hcase
            rw [hbeq]
            simp only [Bool.false_eq_true, if_false, List.append_nil]
            exact hlm e he
        · rw [deliver_failed_save now o dur hev ht (Or.inr (Nat.not_lt.mp hcap))]
          exact lm_saveEvent hlm hmem rfl rfl

theorem lm_withNewEvent {db : DB} {ev0 : TenantWebhookEvent}
    (hwf : DBWellFormed db) (hlm : LogsMatchAttempts db)
    (hid : ev0.id = db.nextEventId) (hatt : ev0.attempts = 0) :
    LogsMatchAttempts (withNewEvent db ev0) := by
  intro e he
  rcases List.mem_append.mp he with hm | hm
  · exact hlm e hm
  · have he0 : e = ev0 := by simpa using hm
    rw [he0, hatt]
    have hnil : logsFor (withNewEvent db ev0) ev0.id = [] := by
      unfold logsFor withNewEvent
      rw [List.filter_eq_nil_iff]
      intro l hl
      have hlt := hwf.2 l hl
      rw [hid]
      intro hc
      have := eq_of_beq hc
      omega
    rw [hnil]
    rfl

theorem lm_enqueue {db : DB} (tid : Nat) (et : String) (pl : Json) (key : String)
    (now : Nat) (o : HttpOutcome) (dur : Nat)
    (hwf : DBWellFormed db) (hlm : LogsMatchAttempts db) :
    LogsMatchAttempts (queue_webhook_event db tid et pl key now o dur).2 := by
  by_cases hdup : db.events.any (fun e => e.idempotency_key == key) = true
  · rw [queue_dup tid et pl now o dur hdup]
    exact hlm
  · rw [queue_new tid et pl now o dur (Bool.eq_false_iff.mpr hdup)]
    exact lm_deliver _ now o dur (lm_withNewEvent hwf hlm rfl rfl)

/-! ## Attempt-counter monotonicity -/

theorem deliver_attempts_mono {db : DB} (eid now : Nat) (o : HttpOutcome) (dur : Nat)
    (hlm : LogsMatchAttempts db) :
    ∀ e ∈ db.events, ∀ e2 ∈ (deliver_webhook_to_tenant db eid now o dur).events,
      e2.id = e.id → e.attempts ≤ e2.attempts := by
  intro e he e2 he2 hid
  cases hev : findEvent db eid with
  | none =>
      rw [deliver_not_found now o dur hev] at he2
      exact Nat.le_of_eq (attempts_eq_of_same_id hlm he he2 hid.symm)
  | some ev =>
    cases ht : findTenant db ev.tenant_id with
    | none =>
        rw [deliver_no_tenant now o dur hev ht] at he2
        exact Nat.le_of_eq (attempts_eq_of_same_id hlm he he2 hid.symm)
    | some t =>
      have hmem : ev ∈ db.events := findEvent_mem hev
      by_cases hu : tenantUrlMissing t = true
      · rw [deliver_failed_save now o dur hev ht (Or.inl hu)] at he2
        rw [saveEvent_events] at he2
        obtain ⟨e3, he3, rfl⟩ := List.mem_map.mp he2
        by_cases hcase : e3.id = ev.id
        · have hdd : e3.id = ({ ev with status := "failed" } : TenantWebhookEvent).id := hcase
          rw [replaceEvent_eq hdd] at hid ⊢
          have heq : e.attempts = ev.attempts := by
            apply attempts_eq_of_same_id hlm he hmem
            exact hid.symm
          exact Nat.le_of_eq heq
        · have hdd : ¬ e3.id = ({ ev with status := "failed" } : TenantWebhookEvent).id := hcase
          rw [replaceEvent_ne hdd] at hid ⊢
          exact Nat.le_of_eq (attempts_eq_of_same_id hlm he he3 hid.symm)
      · have hu2 : tenantUrlMissing t = false := Bool.eq_false_iff.mpr hu
        by_cases hcap : ev.attempts < MAX_ATTEMPTS
        · rw [deliver_attempt_eq now o dur hev ht hu2 hcap] at he2
          rw [appendLog_events, saveEvent_events, saveEvent_events] at he2
          obtain ⟨e3, he3, rfl⟩ := List.mem_map.mp he2
          obtain ⟨e4, he4, rfl⟩ := List.mem_map.mp he3
          by_cases hcase : e4.id = ev.id
          · have hdd : e4.id = (sendingEvent ev now).id := hcase
            rw [replaceEvent_eq hdd] at hid ⊢
            have hc2 : (sendingEvent ev now).id =
                (classifyOutcome (sendingEvent ev now) now o).event.id := (classify_id _ _ _).symm
            rw [replaceEvent_eq hc2] at hid ⊢
            rw [classify_id] at hid
            rw [classify_attempts]
            have heq : e.attempts = ev.attempts :=
              attempts_eq_of_same_id hlm he hmem (show e.id = ev.id from hid.symm)
            have hsat : (sendingEvent ev now).attempts = ev.attempts + 1 := rfl
            rw [hsat]
            omega
          · have hdd : ¬ e4.id = (sendingEvent ev now).id := hcase
            rw [replaceEvent_ne hdd] at hid ⊢
            have hc2 : ¬ e4.id = (classifyOutcome (sendingEvent ev now) now o).event.id := by
              rw [classify_id]
              exact hcase
            rw [replaceEvent_ne hc2] at hid ⊢
            exact Nat.le_of_eq (attempts_eq_of_same_id hlm he he4 hid.symm)
        · rw [deliver_failed_save now o dur hev ht (Or.inr (Nat.not_lt.mp hcap))] at he2
          rw [saveEvent_events] at he2
          obtain ⟨e3, he3, rfl⟩ := List.mem_map.mp he2
          by_cases hcase : e3.id = ev.id
          · have hdd : e3.id = ({ ev with status := "failed" } : TenantWebhookEvent).id := hcase
            rw [replaceEvent_eq hdd] at hid ⊢
            have heq : e.attempts = ev.attempts :=
              attempts_eq_of_same_id hlm he hmem (show e.id = ev.id from hid.symm)
            exact Nat.le_of_eq heq
          · have hdd : ¬ e3.id = ({ ev with status := "failed" } : TenantWebhookEvent).id := hcase
            rw [replaceEvent_ne hdd] at hid ⊢
            exact Nat.le_of_eq (attempts_eq_of_same_id hlm he he3 hid.symm)

theorem edstep_attempts_mono {db db2 : DB}
    (hwf : DBWellFormed db) (hlm : LogsMatchAttempts db) (hstep : EDStep db db2) :
    ∀ e ∈ db.events, ∀ e2 ∈ db2.events, e2.id = e.id → e.attempts ≤ e2.attempts := by
  cases hstep with
  | deliver eid now o dur =>
      exact deliver_attempts_mono eid now o dur hlm
  | enqueue tid et pl key now o dur =>
      intro e he e2 he2 hid
      by_cases hdup : db.events.any (fun e => e.idempotency_key == key) = true
      · rw [queue_dup tid et pl now o dur hdup] at he2
        exact Nat.le_of_eq (attempts_eq_of_same_id hlm he he2 hid.symm)
      · rw [queue_new tid et pl now o dur (Bool.eq_false_iff.mpr hdup)] at he2
        have hwf1 := @wf_withNewEvent db (enqueuedEvent db tid et pl key now) hwf rfl
        have hlm1 := @lm_withNewEvent db (enqueuedEvent db tid et pl key now) hwf hlm rfl rfl
        have hmem1 : e ∈ (withNewEvent db (enqueuedEvent db tid et pl key now)).events :=
          List.mem_append.mpr (Or.inl he)
        exact deliver_attempts_mono _ now o dur hlm1 e hmem1 e2 he2 hid

/-! ## succeeded_at / sent invariant preservation -/

theorem succ_none_of_not_sent {db : DB} {ev : TenantWebhookEvent}
    (hsi : SucceededIffSent db) (hmem : ev ∈ db.events) (hs : ev.status ≠ "sent") :
    ev.succeeded_at = none := by
  have h := hsi ev hmem
  by_cases hq : ev.succeeded_at = none
  · exact hq
  · exact absurd (h.mp hq) hs

theorem succ_deliver {db : DB} (eid now : Nat) (o : HttpOutcome) (dur : Nat)
    (hsi : SucceededIffSent db)
    (hguard : ∀ e ∈ db.events, e.id = eid → e.status ≠ "sent") :
    SucceededIffSent (deliver_webhook_to_tenant db eid now o dur) := by
  cases hev : findEvent db eid with
  | none => rw [deliver_not_found now o dur hev]; exact hsi
  | some ev =>
    cases ht : findTenant db ev.tenant_id with
    | none => rw [deliver_no_tenant now o dur hev ht]; exact hsi
    | some t =>
      have hmem : ev ∈ db.events := findEvent_mem hev
      have hevsent : ev.status ≠ "sent" := hguard ev hmem (findEvent_id hev)
      have hevnone : ev.succeeded_at = none := succ_none_of_not_sent hsi hmem hevsent
      have hfailed : SucceededIffSent (saveEvent db { ev with status := "failed" }) := by
        intro e2 he2
        rw [saveEvent_events] at he2
        obtain ⟨e, he, rfl⟩ := List.mem_map.mp he2
        by_cases hcase : e.id = ({ ev with status := "failed" } : TenantWebhookEvent).id
        · rw [replaceEvent_eq hcase]
          show (ev.succeeded_at ≠ none ↔ "failed" = "sent")
          rw [hevnone]
          simp
        · rw [replaceEvent_ne hcase]
          exact hsi e he
      by_cases hu : tenantUrlMissing t = true
      · rw [deliver_failed_save now o dur hev ht (Or.inl hu)]
        exact hfailed
      · have hu2 : tenantUrlMissing t = false := Bool.eq_false_iff.mpr hu
        by_cases hcap : ev.attempts < MAX_ATTEMPTS
        · rw [deliver_attempt_eq now o dur hev ht hu2 hcap]
          intro e2 he2
          rw [appendLog_events, saveEvent_events, saveEvent_events] at he2
          obtain ⟨e3, he3, rfl⟩ := List.mem_map.mp he2
          obtain ⟨e, he, rfl⟩ := List.mem_map.mp he3
          by_cases hcase : e.id = (sendingEvent ev now).id
          · rw [replaceEvent_eq hcase]
            have hc2 : (sendingEvent ev now).id =
                (classifyOutcome (sendingEvent ev now) now o).event.id := (classify_id _ _ _).symm
            rw [replaceEvent_eq hc2]
            rw [classify_succeeded, classify_status]
            have hsend_succ : (sendingEvent ev now).succeeded_at = ev.succeeded_at := rfl
            rw [hsend_succ, hevnone]
            by_cases hsucc : isSuccessOutcome o = true
            · rw [hsucc]
              simp
            · have hsucc2 : isSuccessOutcome o = false := Bool.eq_false_iff.mpr hsucc
              rw [hsucc2]
              simp
          · rw [replaceEvent_ne hcase]
            have hc2 : ¬ e.id = (classifyOutcome (sendingEvent ev now) now o).event.id := by
              rw [classify_id]
              exact hcase
            rw [replaceEvent_ne hc2]
            exact hsi e he
        · rw [deliver_failed_save now o dur hev ht (Or.inr (Nat.not_lt.mp hcap))]
          exact hfailed

theorem succ_enqueue {db : DB} (tid : Nat) (et : String) (pl : Json) (key : String)
    (now : Nat) (o : HttpOutcome) (dur : Nat)
    (hwf : DBWellFormed db) (hsi : SucceededIffSent db) :
    SucceededIffSent (queue_webhook_event db tid et pl key now o dur).2 := by
  by_cases hdup : db.events.any (fun e => e.idempotency_key == key) = true
  · rw [queue_dup tid et pl now o dur hdup]
    exact hsi
  · rw [queue_new tid et pl now o dur (Bool.eq_false_iff.mpr hdup)]
    apply succ_deliver
    · intro e he
      rcases List.mem_append.mp he with hm | hm
      · exact hsi e hm
      · have he0 : e = enqueuedEvent db tid et pl key now := by simpa using hm
        rw [he0]
        show ((none : Option Nat) ≠ none ↔ "pending" = "sent")
        simp
    · intro e he hid
      rcases List.mem_append.mp he with hm | hm
      · have := hwf.1 e hm
        omega
      · have he0 : e = enqueuedEvent db tid et pl key now := by simpa using hm
        rw [he0]
        intro hc
        have hps : ("pending" : String) = "sent" := hc
        exact absurd hps (by decide)

theorem succ_retry {db : DB} (tid eid now : Nat) (o : HttpOutcome) (dur : Nat)
    (hsi : SucceededIffSent db) :
    SucceededIffSent (retry_webhook_event db tid eid now o dur).2 := by
  cases hf : db.events.find? (fun e => e.id == eid && e.tenant_id == tid) with
  | none => rw [retry_not_found now o dur hf]; exact hsi
  | some event =>
    by_cases hs : event.status = "sent"
    · rw [retry_sent now o dur hf hs]
      exact hsi
    · rw [retry_go now o dur hf hs]
      have hmem : event ∈ db.events := retry_found_mem hf
      have hnone : event.succeeded_at = none := succ_none_of_not_sent hsi hmem hs
      have hsi1 : SucceededIffSent
          (saveEvent db { event with status := "pending", attempts := 0 }) := by
        intro e2 he2
        rw [saveEvent_events] at he2
        obtain ⟨e, he, rfl⟩ := List.mem_map.mp he2
        by_cases hcase : e.id =
            ({ event with status := "pending", attempts := 0 } : TenantWebhookEvent).id
        · rw [replaceEvent_eq hcase]
          show (event.succeeded_at ≠ none ↔ "pending" = "sent")
          rw [hnone]
          simp
        · rw [replaceEvent_ne hcase]
          exact hsi e he
      apply succ_deliver _ now o dur hsi1
      intro e he hid
      rw [saveEvent_events] at he
      obtain ⟨e0, he0, rfl⟩ := List.mem_map.mp he
      by_cases hcase : e0.id =
          ({ event with status := "pending", attempts := 0 } : TenantWebhookEvent).id
      · rw [replaceEvent_eq hcase]
        intro hc
        have hps : ("pending" : String) = "sent" := hc
        exact absurd hps (by decide)
      · rw [replaceEvent_ne hcase] at hid ⊢
        exact absurd (show e0.id = ({ event with status := "pending", attempts := 0 } :
          TenantWebhookEvent).id from hid) hcase

/-! ## Digest range facts (for the signer theorems) -/

theorem and_mask32_lt (x : Nat) : x &&& mask32 < 4294967296 := by
  have h : x &&& mask32 ≤ mask32 := Nat.and_le_right
  unfold mask32 at h ⊢
  omega

theorem compress_bounded (h0 : Hash8) (block : List Nat) :
    hashBounded (compress h0 block) :=
  ⟨and_mask32_lt _, and_mask32_lt _, and_mask32_lt _, and_mask32_lt _,
   and_mask32_lt _, and_mask32_lt _, and_mask32_lt _, and_mask32_lt _⟩

theorem foldl_compress_bounded :
    ∀ (blocks : List (List Nat)) (h0 : Hash8), hashBounded h0 →
      hashBounded (blocks.foldl compress h0) := by
  intro blocks
  induction blocks with
  | nil => intro h0 hb; exact hb
  | cons b bs ih => intro h0 hb; exact ih (compress h0 b) (compress_bounded h0 b)

theorem initH_bounded : hashBounded initH := by
  refine ⟨?_, ?_, ?_, ?_, ?_, ?_, ?_, ?_⟩ <;> decide

theorem digestNat_lt (h : Hash8) (hb : hashBounded h) : digestNat h < 2 ^ 256 := by
  obtain ⟨h1, h2, h3, h4, h5, h6, h7, h8⟩ := hb
  unfold digestNat
  simp only [List.foldl]
  have hp : (2:Nat) ^ 256 =
      115792089237316195423570985008687907853269984665640564039457584007913129639936 := by
    norm_num
  rw [hp]
  omega

theorem sha256Nat_lt (m : List Nat) : sha256Nat m < 2 ^ 256 := by
  unfold sha256Nat
  exact digestNat_lt _ (foldl_compress_bounded _ _ initH_bounded)

theorem hmacSha256Nat_lt (key msg : List Nat) : hmacSha256Nat key msg < 2 ^ 256 := by
  unfold hmacSha256Nat
  exact sha256Nat_lt _

/-! ## Claim C9 -/

/-- C9 (counterexample): the claim "for any payload and secret,
verify(payload, sign(payload, secret), secret) is true; and for any
single-byte payload mutation or any different secret, verification returns
false" is false as stated: the HMAC digest space is finite while the secret
space is infinite, so two distinct secrets collide on some digest and the
different-secret clause fails for them. -/
theorem c9_counterexample : ¬ claimC9Statement := by
  intro h
  obtain ⟨h1, h2, h3⟩ := h
  have hpos : 0 < 2 ^ 256 := by positivity
  obtain ⟨n, m, hnm, hfeq⟩ := Finite.exists_ne_map_eq_of_infinite
    (fun n : Nat =>
      (⟨hmacSha256Nat (utf8Bytes (aSecret n)) (sigPayloadBytes (.str "x")) % 2 ^ 256,
        Nat.mod_lt _ hpos⟩ : Fin (2 ^ 256)))
  have hv := congrArg Fin.val hfeq
  simp only [] at hv
  rw [Nat.mod_eq_of_lt (hmacSha256Nat_lt _ _), Nat.mod_eq_of_lt (hmacSha256Nat_lt _ _)] at hv
  have hgen : generate_webhook_signature (.str "x") (aSecret n) =
      generate_webhook_signature (.str "x") (aSecret m) := by
    unfold generate_webhook_signature
    rw [hv]
  have hsecne : aSecret n ≠ aSecret m := by
    intro hc
    apply hnm
    have hlen := congrArg (fun s : String => s.data.length) hc
    simpa [aSecret] using hlen
  have hv2 := h3 (.str "x") (aSecret n) (aSecret m) hsecne
  rw [hgen] at hv2
  have hv3 : verify_webhook_signature (.str "x")
      (generate_webhook_signature (.str "x") (aSecret m)) (aSecret m) = true := by
    unfold verify_webhook_signature
    exact beq_self_eq_true _
  rw [hv2] at hv3
  exact Bool.false_ne_true hv3

/-- C9 (amended): the round-trip always verifies, and verification succeeds
exactly when the presented signature equals the HMAC digest recomputed over
the payload with the given secret — so any payload mutation or secret change
is rejected precisely when it changes the digest. -/
theorem c9_signature_characterization :
    (∀ (p : SigPayload) (s : String),
      verify_webhook_signature p (generate_webhook_signature p s) s = true) ∧
    (∀ (p : SigPayload) (sig s : String),
      verify_webhook_signature p sig s = true ↔ sig = generate_webhook_signature p s) := by
  constructor
  · intro p s
    unfold verify_webhook_signature
    exact beq_self_eq_true _
  · intro p sig s
    unfold verify_webhook_signature
    exact beq_iff_eq

/-! ## Claim C3 -/

theorem count_filter_map_id (p : WebhookEvent → Bool) :
    ∀ (events : List WebhookEvent), (events.map (fun x => x.id)).Nodup →
      ∀ e ∈ events, ((events.filter p).map (fun x => x.id)).count e.id =
        if p e then 1 else 0 := by
  intro events
  induction events with
  | nil => intro _ e he; cases he
  | cons a tl ih =>
      intro hids e he
      rw [List.map_cons] at hids
      obtain ⟨hna, htl⟩ := List.nodup_cons.mp hids
      have hcount0 : ∀ x, x ∉ (tl.map fun y => y.id) →
          ((tl.filter p).map (fun y => y.id)).count x = 0 := by
        intro x hx
        rw [List.count_eq_zero]
        intro hc
        obtain ⟨y, hy, hyx⟩ := List.mem_map.mp hc
        exact hx (List.mem_map.mpr ⟨y, List.mem_of_mem_filter hy, hyx⟩)
      rcases List.mem_cons.mp he with rfl | hetl
      · rw [List.filter_cons]
        by_cases hpa : p e = true
        · rw [if_pos hpa, List.map_cons, List.count_cons]
          rw [hcount0 e.id hna]
          simp [hpa]
        · have hpa2 : p e = false := Bool.eq_false_iff.mpr hpa
          rw [if_neg hpa]
          rw [hcount0 e.id hna]
          simp [hpa2]
      · have hne : a.id ≠ e.id := by
          intro hc
          exact hna (hc ▸ List.mem_map.mpr ⟨e, hetl, rfl⟩)
        rw [List.filter_cons]
        by_cases hpa : p a = true
        · rw [if_pos hpa, List.map_cons, List.count_cons]
          rw [ih htl e hetl]
          have hbeq : (a.id == e.id) = false := by
            cases hq : (a.id == e.id)
            · rfl
            · exact absurd (eq_of_beq hq) hne
          rw [hbeq]
          simp
        · rw [if_neg hpa]
          exact ih htl e hetl

/-- C3 (counterexample): a pending event below the attempts cap is selected
by the claim's predicate but retry_failed_webhooks does not schedule it —
the source filters status__in=['failed', 'retrying'], not
\x7bfailed, pending\x7d. -/
theorem c3_counterexample :
    claimedRetrySelection c3PendingEvent = true ∧
    retry_failed_webhooks [c3PendingEvent] = [] :=
  ⟨rfl, rfl⟩

/-- C3 (amended): retry_failed_webhooks schedules the delivery task exactly
once for each event whose status is failed or retrying and whose attempts
counter is below 3, and never for any other event (stated for stores whose
event ids are distinct). -/
theorem c3_sweep_selection (events : List WebhookEvent) (e : WebhookEvent)
    (hids : (events.map (fun x => x.id)).Nodup) (he : e ∈ events) :
    (retry_failed_webhooks events).count e.id =
      if (e.status == "failed" || e.status == "retrying") && e.attempts < 3
      then 1 else 0 := by
  unfold retry_failed_webhooks
  exact count_filter_map_id _ events hids e he

/-- C3 (witness): in a store holding one failed event below the cap and one
pending event, the sweep schedules the failed event exactly once. -/
theorem c3_witness :
    (retry_failed_webhooks [c3FailedEvent, c3PendingEvent]).count c3FailedEvent.id =
      if (c3FailedEvent.status == "failed" || c3FailedEvent.status == "retrying") &&
          c3FailedEvent.attempts < 3 then 1 else 0 :=
  c3_sweep_selection [c3FailedEvent, c3PendingEvent] c3FailedEvent (by decide)
    (List.Mem.head _)

/-! ## Claim C1 -/

/-- C1: the bytes requests.post(json=...) transmits are json.dumps with
default separators and insertion order, while the X-Webhook-Signature HMAC
is computed over json.dumps(..., separators=(',', ':'), sort_keys=True); on
a concrete enqueued event the two serializations differ, and verifying the
signature against the raw transmitted body with the tenant's secret fails:
the code contradicts its own tenant verification documentation. -/
theorem c1_canonicalization_bug :
    transmittedRequestBody c1Event ≠ jsonDumpsCanonical (webhookEnvelope c1Event) ∧
    verify_webhook_signature (SigPayload.str (transmittedRequestBody c1Event))
      (generate_webhook_signature (SigPayload.dict (webhookEnvelope c1Event)) "whsec_test")
      "whsec_test" = false := by
  constructor
  · decide
  · decide

/-! ## Claim C6 -/

/-- C6: once attempts is at or above MAX_ATTEMPTS (3),
deliver_webhook_to_tenant only persists the event with status failed: the
store equals a single save of the status-flipped row (so attempts and every
other field are unchanged), the log table is untouched, and the result does
not depend on the HTTP environment at all — no request is issued. -/
theorem c6_cap_enforcement (db : DB) (eid now : Nat) (o : HttpOutcome) (dur : Nat)
    (ev : TenantWebhookEvent) (t : Tenant)
    (hev : findEvent db eid = some ev) (ht : findTenant db ev.tenant_id = some t)
    (hcap : MAX_ATTEMPTS ≤ ev.attempts) :
    deliver_webhook_to_tenant db eid now o dur =
      saveEvent db { ev with status := "failed" } ∧
    (deliver_webhook_to_tenant db eid now o dur).logs = db.logs ∧
    findEvent (deliver_webhook_to_tenant db eid now o dur) eid =
      some { ev with status := "failed" } ∧
    (∀ (now2 : Nat) (o2 : HttpOutcome) (dur2 : Nat),
      deliver_webhook_to_tenant db eid now2 o2 dur2 =
        deliver_webhook_to_tenant db eid now o dur) := by
  have hmain : ∀ (n : Nat) (oo : HttpOutcome) (d : Nat),
      deliver_webhook_to_tenant db eid n oo d =
        saveEvent db { ev with status := "failed" } :=
    fun n oo d => deliver_failed_save n oo d hev ht (Or.inr hcap)
  refine ⟨hmain now o dur, ?_, ?_,
    fun n2 o2 d2 => (hmain n2 o2 d2).trans (hmain now o dur).symm⟩
  · rw [hmain now o dur, saveEvent_logs]
  · rw [hmain now o dur, findEvent_saveEvent, hev]
    show some (replaceEvent { ev with status := "failed" } ev) =
      some { ev with status := "failed" }
    rw [replaceEvent_eq
      (show ev.id = ({ ev with status := "failed" } : TenantWebhookEvent).id from rfl)]

/-- C6 (witness): on a concrete store whose event has attempts = 3, the
deliver call is exactly the failed-status save. -/
theorem c6_witness :
    deliver_webhook_to_tenant c6DB 1 5 .timeout 7 =
      saveEvent c6DB { c6Event with status := "failed" } ∧
    (deliver_webhook_to_tenant c6DB 1 5 .timeout 7).logs = c6DB.logs :=
  ⟨(c6_cap_enforcement c6DB 1 5 .timeout 7 c6Event exTenant rfl rfl (by decide)).1,
   (c6_cap_enforcement c6DB 1 5 .timeout 7 c6Event exTenant rfl rfl (by decide)).2.1⟩

/-! ## Claim C8 -/

/-- C8: when the event's tenant has no webhook URL, deliver only flips the
event status to failed and persists it: the store equals that single save
(all other event fields unchanged), no log row is created, and the result
does not depend on the HTTP environment — no request is issued. -/
theorem c8_no_url_short_circuit (db : DB) (eid now : Nat) (o : HttpOutcome) (dur : Nat)
    (ev : TenantWebhookEvent) (t : Tenant)
    (hev : findEvent db eid = some ev) (ht : findTenant db ev.tenant_id = some t)
    (hurl : tenantUrlMissing t = true) :
    deliver_webhook_to_tenant db eid now o dur =
      saveEvent db { ev with status := "failed" } ∧
    (deliver_webhook_to_tenant db eid now o dur).logs = db.logs ∧
    findEvent (deliver_webhook_to_tenant db eid now o dur) eid =
      some { ev with status := "failed" } ∧
    (∀ (now2 : Nat) (o2 : HttpOutcome) (dur2 : Nat),
      deliver_webhook_to_tenant db eid now2 o2 dur2 =
        deliver_webhook_to_tenant db eid now o dur) := by
  have hmain : ∀ (n : Nat) (oo : HttpOutcome) (d : Nat),
      deliver_webhook_to_tenant db eid n oo d =
        saveEvent db { ev with status := "failed" } :=
    fun n oo d => deliver_failed_save n oo d hev ht (Or.inl hurl)
  refine ⟨hmain now o dur, ?_, ?_,
    fun n2 o2 d2 => (hmain n2 o2 d2).trans (hmain now o dur).symm⟩
  · rw [hmain now o dur, saveEvent_logs]
  · rw [hmain now o dur, findEvent_saveEvent, hev]
    show some (replaceEvent { ev with status := "failed" } ev) =
      some { ev with status := "failed" }
    rw [replaceEvent_eq
      (show ev.id = ({ ev with status := "failed" } : TenantWebhookEvent).id from rfl)]

/-- C8 (witness): on a concrete store whose tenant has webhook_url unset,
the deliver call is exactly the failed-status save and appends no log. -/
theorem c8_witness :
    deliver_webhook_to_tenant c8DB 1 5 .timeout 7 =
      saveEvent c8DB { c8Event with status := "failed" } ∧
    (deliver_webhook_to_tenant c8DB 1 5 .timeout 7).logs = c8DB.logs :=
  ⟨(c8_no_url_short_circuit c8DB 1 5 .timeout 7 c8Event exNoUrlTenant rfl rfl rfl).1,
   (c8_no_url_short_circuit c8DB 1 5 .timeout 7 c8Event exNoUrlTenant rfl rfl rfl).2.1⟩

/-! ## Claim C10 -/

theorem retry_go_not_badRequest {db : DB} {tid eid : Nat} {event : TenantWebhookEvent}
    (now : Nat) (o : HttpOutcome) (dur : Nat)
    (hf : db.events.find? (fun e => e.id == eid && e.tenant_id == tid) = some event)
    (hs : event.status ≠ "sent") :
    (retry_webhook_event db tid eid now o dur).1 ≠ RetryResponse.badRequest := by
  have hb : (event.status == "sent") = false := by
    cases hq : (event.status == "sent")
    · rfl
    · exact absurd (eq_of_beq hq) hs
  simp only [retry_webhook_event, hf, hb, Bool.false_eq_true, if_false]
  intro hc
  exact RetryResponse.noConfusion hc

/-- C10: for an event the tenant owns, the manual-retry endpoint rejects
with HTTP 400 and leaves the store unchanged exactly when the event status
is sent; for every other status it resets the row to status pending with
attempts 0, persists it, and invokes the Delivery Engine once on that
reset store. -/
theorem c10_manual_retry_gate (db : DB) (tid eid now : Nat) (o : HttpOutcome) (dur : Nat)
    (event : TenantWebhookEvent)
    (hf : db.events.find? (fun e => e.id == eid && e.tenant_id == tid) = some event) :
    (((retry_webhook_event db tid eid now o dur).1 = RetryResponse.badRequest ∧
       (retry_webhook_event db tid eid now o dur).2 = db) ↔ event.status = "sent") ∧
    (event.status ≠ "sent" →
      (retry_webhook_event db tid eid now o dur).2 =
        deliver_webhook_to_tenant
          (saveEvent db { event with status := "pending", attempts := 0 })
          event.id now o dur) := by
  constructor
  · constructor
    · rintro ⟨h1, _⟩
      by_contra hs
      exact retry_go_not_badRequest now o dur hf hs h1
    · intro hs
      have h := retry_sent now o dur hf hs
      exact ⟨by rw [h], by rw [h]⟩
  · intro hs
    exact retry_go now o dur hf hs

/-- C10 (witness): retrying a concrete failed event with attempts = 3
resets it to pending/0 and hands it to the Delivery Engine once. -/
theorem c10_witness :
    (retry_webhook_event c10DB 1 1 3 .timeout 4).2 =
      deliver_webhook_to_tenant
        (saveEvent c10DB { c10Event with status := "pending", attempts := 0 })
        c10Event.id 3 .timeout 4 :=
  (c10_manual_retry_gate c10DB 1 1 3 .timeout 4 c10Event rfl).2 (by decide)

/-! ## Claim C4 -/

/-- C4: when an attempt is actually made (event present, URL configured,
attempts below the cap), every HTTP outcome — 2xx, non-2xx, timeout,
connection error, or any other exception — is captured entirely as
persisted state: the embedded deliver is a total function whose result
event status is sent on success and pending on every failure, exactly one
log row is appended for the event, and on failure that row carries an
error message.  Nothing is raised to the caller. -/
theorem c4_delivery_never_raises (db : DB) (eid now : Nat) (o : HttpOutcome) (dur : Nat)
    (ev : TenantWebhookEvent) (t : Tenant)
    (hev : findEvent db eid = some ev) (ht : findTenant db ev.tenant_id = some t)
    (hu : tenantUrlMissing t = false) (hcap : ev.attempts < MAX_ATTEMPTS) :
    ((findEvent (deliver_webhook_to_tenant db eid now o dur) eid).map
      (fun e => e.status)) = some (if isSuccessOutcome o then "sent" else "pending") ∧
    (logsFor (deliver_webhook_to_tenant db eid now o dur) eid).length =
      (logsFor db eid).length + 1 ∧
    (isSuccessOutcome o = false →
      ∃ msg, ((logsFor (deliver_webhook_to_tenant db eid now o dur) eid).getLast?.map
        (fun l => l.error_message)) = some (some msg)) := by
  have heq := deliver_attempt_eq now o dur hev ht hu hcap
  have hbeq : ((attemptLogRow
      (saveEvent (saveEvent db (sendingEvent ev now))
        (classifyOutcome (sendingEvent ev now) now o).event)
      t (sendingEvent ev now) (classifyOutcome (sendingEvent ev now) now o)
      now dur).webhook_event_id == eid) = true := by
    show (ev.id == eid) = true
    rw [findEvent_id hev]
    exact beq_self_eq_true eid
  refine ⟨?_, ?_, ?_⟩
  · rw [heq, findEvent_appendLog, findEvent_saveEvent, findEvent_saveEvent, hev]
    show some ((replaceEvent (classifyOutcome (sendingEvent ev now) now o).event
      (replaceEvent (sendingEvent ev now) ev)).status) =
      some (if isSuccessOutcome o then "sent" else "pending")
    rw [replaceEvent_eq (show ev.id = (sendingEvent ev now).id from rfl)]
    rw [replaceEvent_eq ((classify_id (sendingEvent ev now) now o).symm)]
    rw [classify_status]
  · rw [heq, logsFor_appendLog, logsFor_saveEvent, logsFor_saveEvent, if_pos hbeq]
    simp
  · intro hfail
    obtain ⟨msg, hmsg⟩ := classify_error_some (sendingEvent ev now) now o hfail
    refine ⟨msg, ?_⟩
    rw [heq, logsFor_appendLog, logsFor_saveEvent, logsFor_saveEvent, if_pos hbeq]
    rw [List.getLast?_concat]
    show some ((classifyOutcome (sendingEvent ev now) now o).error) = some (some msg)
    rw [hmsg]

/-- C4 (witness): a concrete timed-out attempt leaves the event pending. -/
theorem c4_witness :
    ((findEvent (deliver_webhook_to_tenant c4DB 1 5 .timeout 7) 1).map
      (fun e => e.status)) = some (if isSuccessOutcome .timeout then "sent" else "pending") :=
  (c4_delivery_never_raises c4DB 1 5 .timeout 7 c4Event exTenant rfl rfl rfl (by decide)).1

/-! ## Claim C5 -/

theorem hkeys_replace (l : List TenantWebhookEvent) (evn : TenantWebhookEvent)
    (eid : Nat) (k : String)
    (hkeys : ∀ e ∈ l, e.id = eid → e.idempotency_key = k)
    (hnk : evn.idempotency_key = k) :
    ∀ e ∈ l.map (replaceEvent evn), e.id = eid → e.idempotency_key = k := by
  intro e2 he2 hid2
  obtain ⟨e, he, rfl⟩ := List.mem_map.mp he2
  by_cases hcase : e.id = evn.id
  · rw [replaceEvent_eq hcase]
    exact hnk
  · rw [replaceEvent_ne hcase] at hid2 ⊢
    exact hkeys e he hid2

theorem map_key_replace (l : List TenantWebhookEvent) (evn : TenantWebhookEvent)
    (eid : Nat) (k : String)
    (hkeys : ∀ e ∈ l, e.id = eid → e.idempotency_key = k)
    (hnid : evn.id = eid) (hnk : evn.idempotency_key = k) :
    (l.map (replaceEvent evn)).map (fun e => e.idempotency_key) =
      l.map (fun e => e.idempotency_key) := by
  rw [List.map_map]
  apply List.map_congr_left
  intro e he
  show (replaceEvent evn e).idempotency_key = e.idempotency_key
  by_cases hcase : e.id = evn.id
  · rw [replaceEvent_eq hcase, hnk]
    exact (hkeys e he (by rw [hcase, hnid])).symm
  · rw [replaceEvent_ne hcase]

theorem deliver_keys {db : DB} (eid now : Nat) (o : HttpOutcome) (dur : Nat) {k : String}
    (hkeys : ∀ e ∈ db.events, e.id = eid → e.idempotency_key = k) :
    (deliver_webhook_to_tenant db eid now o dur).events.map (fun e => e.idempotency_key) =
      db.events.map (fun e => e.idempotency_key) := by
  cases hev : findEvent db eid with
  | none => rw [deliver_not_found now o dur hev]
  | some ev =>
    have hevid := findEvent_id hev
    have hmem := findEvent_mem hev
    have hevk : ev.idempotency_key = k := hkeys ev hmem hevid
    cases ht : findTenant db ev.tenant_id with
    | none => rw [deliver_no_tenant now o dur hev ht]
    | some t =>
      by_cases hu : tenantUrlMissing t = true
      · rw [deliver_failed_save now o dur hev ht (Or.inl hu), saveEvent_events]
        exact map_key_replace db.events _ eid k hkeys hevid hevk
      · have hu2 : tenantUrlMissing t = false := Bool.eq_false_iff.mpr hu
        by_cases hcap : ev.attempts < MAX_ATTEMPTS
        · rw [deliver_attempt_eq now o dur hev ht hu2 hcap, appendLog_events,
              saveEvent_events, saveEvent_events]
          rw [map_key_replace (db.events.map (replaceEvent (sendingEvent ev now)))
            (classifyOutcome (sendingEvent ev now) now o).event eid k
            (hkeys_replace db.events (sendingEvent ev now) eid k hkeys hevk)
            (by rw [classify_id]; exact hevid)
            (by rw [classify_key]; exact hevk)]
          exact map_key_replace db.events (sendingEvent ev now) eid k hkeys hevid hevk
        · rw [deliver_failed_save now o dur hev ht (Or.inr (Nat.not_lt.mp hcap)),
              saveEvent_events]
          exact map_key_replace db.events _ eid k hkeys hevid hevk

theorem filter_key_length (l : List TenantWebhookEvent) (k : String) :
    (l.filter (fun e => e.idempotency_key == k)).length =
      ((l.map (fun e => e.idempotency_key)).filter (fun s => s == k)).length := by
  induction l with
  | nil => rfl
  | cons a tl ih =>
      rw [List.map_cons, List.filter_cons, List.filter_cons]
      by_cases h : (a.idempotency_key == k) = true
      · rw [if_pos h, if_pos h]
        simp [ih]
      · rw [if_neg h, if_neg h]
        exact ih

theorem any_key_of_mem (l : List TenantWebhookEvent) (k : String)
    (h : k ∈ l.map (fun e => e.idempotency_key)) :
    l.any (fun e => e.idempotency_key == k) = true := by
  rw [List.any_eq_true]
  obtain ⟨e, he, hk⟩ := List.mem_map.mp h
  exact ⟨e, he, beq_iff_eq.mpr hk⟩

/-- C5: when no event carries the idempotency key yet (and primary keys are
below the autoincrement counter, as the store always keeps them), enqueueing
twice with the same key leaves exactly one event row carrying the key, and
the second call is a complete no-op returning None: no event, no delivery
attempt, no state change at all. -/
theorem c5_enqueue_idempotent (db : DB) (tid : Nat) (et : String) (pl : Json)
    (key : String) (n1 : Nat) (o1 : HttpOutcome) (d1 : Nat)
    (n2 : Nat) (o2 : HttpOutcome) (d2 : Nat)
    (hfresh : ∀ e ∈ db.events, e.id < db.nextEventId)
    (hnew : db.events.any (fun e => e.idempotency_key == key) = false) :
    queue_webhook_event (queue_webhook_event db tid et pl key n1 o1 d1).2
      tid et pl key n2 o2 d2 =
      (none, (queue_webhook_event db tid et pl key n1 o1 d1).2) ∧
    ((queue_webhook_event db tid et pl key n1 o1 d1).2.events.filter
      (fun e => e.idempotency_key == key)).length = 1 := by
  have hq := queue_new tid et pl n1 o1 d1 hnew
  have hkeys1 : ∀ e ∈ (withNewEvent db (enqueuedEvent db tid et pl key n1)).events,
      e.id = db.nextEventId → e.idempotency_key = key := by
    intro e he hid
    rcases List.mem_append.mp he with hm | hm
    · exact absurd hid (Nat.ne_of_lt (hfresh e hm))
    · have he0 : e = enqueuedEvent db tid et pl key n1 := by simpa using hm
      rw [he0]
      rfl
  have hmap := deliver_keys db.nextEventId n1 o1 d1 hkeys1
  constructor
  · have hk1 : key ∈ (withNewEvent db (enqueuedEvent db tid et pl key n1)).events.map
        (fun e => e.idempotency_key) :=
      List.mem_map.mpr ⟨enqueuedEvent db tid et pl key n1, by simp [withNewEvent], rfl⟩
    have hk2 : key ∈ (deliver_webhook_to_tenant
        (withNewEvent db (enqueuedEvent db tid et pl key n1))
        db.nextEventId n1 o1 d1).events.map (fun e => e.idempotency_key) := by
      rw [hmap]
      exact hk1
    rw [hq]
    exact queue_dup tid et pl n2 o2 d2 (any_key_of_mem _ key hk2)
  · rw [hq]
    show ((deliver_webhook_to_tenant
        (withNewEvent db (enqueuedEvent db tid et pl key n1))
        db.nextEventId n1 o1 d1).events.filter
      (fun e => e.idempotency_key == key)).length = 1
    rw [filter_key_length, hmap, ← filter_key_length]
    show ((db.events ++ [enqueuedEvent db tid et pl key n1]).filter
      (fun e => e.idempotency_key == key)).length = 1
    rw [List.filter_append]
    have h0 : db.events.filter (fun e => e.idempotency_key == key) = [] := by
      rw [List.filter_eq_nil_iff]
      intro a ha
      rw [List.any_eq_false] at hnew
      simpa using hnew a ha
    rw [h0]
    have hp : ((enqueuedEvent db tid et pl key n1).idempotency_key == key) = true :=
      beq_self_eq_true key
    rw [List.filter_cons, if_pos hp]
    rfl

/-- C5 (witness): enqueueing the same key twice against an empty store:
the second call is a no-op returning None. -/
theorem c5_witness :
    queue_webhook_event
      (queue_webhook_event (initDB [exTenant]) 1 "payment.succeeded" exPayload "k5"
        0 .timeout 10).2
      1 "payment.succeeded" exPayload "k5" 1 .timeout 10 =
      (none, (queue_webhook_event (initDB [exTenant]) 1 "payment.succeeded" exPayload "k5"
        0 .timeout 10).2) :=
  (c5_enqueue_idempotent (initDB [exTenant]) 1 "payment.succeeded" exPayload "k5"
    0 .timeout 10 1 .timeout 10
    (by intro e he; exact absurd he (List.not_mem_nil e)) rfl).1

/-! ## Claim C2 -/

/-- C2 (counterexample): enqueue one event whose attempt times out (one log
row, attempts = 1), then manually retry it (attempts reset to 0, delivered
once more).  In the resulting state — reachable through the public
operations — the event has attempts = 1 but two log rows, both numbered
attempt 1: the log count does not equal attempts and attempt numbers are
not unique, and the attempts counter decreased during the retry. -/
theorem c2_counterexample :
    OpReachable [exTenant] c2BadDB ∧
    (findEvent c2BadDB 1).map (fun e => e.attempts) = some 1 ∧
    (logsFor c2BadDB 1).length = 2 ∧
    (logsFor c2BadDB 1).map (fun l => l.attempt_number) = [1, 1] := by
  refine ⟨?_, rfl, rfl, rfl⟩
  exact Relation.ReflTransGen.tail
    (Relation.ReflTransGen.tail Relation.ReflTransGen.refl
      (OpStep.enqueue (initDB [exTenant]) 1 "payment.succeeded" exPayload "k2" 0 .timeout 10))
    (OpStep.manualRetry c2WitnessDB 1 1 1 .timeout 10)

/-- C2 (amended): over every state reachable through enqueue and deliver
alone (manual retry excluded — it resets attempts and reuses attempt
numbers, see the counterexample), each event's log rows carry attempt
numbers exactly 1, 2, ..., attempts in order, so the log count equals the
attempts counter with one log per attempt number contiguous from 1; and
every further enqueue/deliver step leaves each stored event's attempts
counter non-decreasing. -/
theorem c2_logs_match_attempts (tenants : List Tenant) (db : DB)
    (h : EDReachable tenants db) :
    (∀ e ∈ db.events, ((logsFor db e.id).map (fun l => l.attempt_number)) =
      List.range' 1 e.attempts) ∧
    (∀ db2, EDStep db db2 → ∀ e ∈ db.events, ∀ e2 ∈ db2.events,
      e2.id = e.id → e.attempts ≤ e2.attempts) := by
  have hmain : DBWellFormed db ∧ LogsMatchAttempts db := by
    unfold EDReachable at h
    induction h with
    | refl =>
        constructor
        · constructor
          · intro e he
            exact absurd he (List.not_mem_nil e)
          · intro l hl
            exact absurd hl (List.not_mem_nil l)
        · intro e he
          exact absurd he (List.not_mem_nil e)
    | tail hsteps hstep ih =>
        obtain ⟨hwf, hlm⟩ := ih
        cases hstep with
        | enqueue tid et pl key now o dur =>
            exact ⟨wf_enqueue tid et pl key now o dur hwf,
                   lm_enqueue tid et pl key now o dur hwf hlm⟩
        | deliver eid now o dur =>
            exact ⟨wf_deliver eid now o dur hwf, lm_deliver eid now o dur hlm⟩
  exact ⟨hmain.2, fun db2 hstep => edstep_attempts_mono hmain.1 hmain.2 hstep⟩

/-- C2 (witness): in the concrete reachable state with one timed-out
attempt, the event's log attempt numbers are exactly [1]. -/
theorem c2_witness :
    (logsFor c2WitnessDB 1).map (fun l => l.attempt_number) =
      List.range' 1 c2WitnessEvent.attempts :=
  (c2_logs_match_attempts [exTenant] c2WitnessDB
    (Relation.ReflTransGen.tail Relation.ReflTransGen.refl
      (EDStep.enqueue (initDB [exTenant]) 1 "payment.succeeded" exPayload "k2"
        0 .timeout 10))).1
    c2WitnessEvent (@findEvent_mem c2WitnessDB 1 c2WitnessEvent rfl)

/-! ## Claim C7 -/

/-- C7 (counterexample): after an enqueue delivered successfully (status
sent, succeeded_at stamped), a further direct deliver call — one of the
public operations the claim quantifies over — re-attempts the sent event;
when that attempt times out the event is pending with succeeded_at still
set, violating the claimed "succeeded_at set iff status sent" invariant in
a reachable state. -/
theorem c7_counterexample :
    OpReachable [exTenant] c7BadDB ∧
    (findEvent c7BadDB 1).map (fun e => e.status) = some "pending" ∧
    (findEvent c7BadDB 1).map (fun e => e.succeeded_at) = some (some 0) := by
  refine ⟨?_, rfl, rfl⟩
  exact Relation.ReflTransGen.tail
    (Relation.ReflTransGen.tail Relation.ReflTransGen.refl
      (OpStep.enqueue (initDB [exTenant]) 1 "payment.succeeded" exPayload "k7" 0
        (.response 200 "" []) 10))
    (OpStep.deliver c7WitnessDB 1 1 .timeout 5)

/-- C7 (amended): succeeded_at is set if and only if status is sent, in
every state reachable through enqueue, manual retry, and deliver restricted
to events that are not already sent — which covers every call site of
deliver in the repository; an unrestricted deliver on an already-sent event
can violate the equivalence (see the counterexample). -/
theorem c7_succeeded_iff_sent (tenants : List Tenant) (db : DB)
    (h : GuardedReachable tenants db) :
    ∀ e ∈ db.events, (e.succeeded_at ≠ none ↔ e.status = "sent") := by
  have hmain : DBWellFormed db ∧ SucceededIffSent db := by
    unfold GuardedReachable at h
    induction h with
    | refl =>
        constructor
        · constructor
          · intro e he
            exact absurd he (List.not_mem_nil e)
          · intro l hl
            exact absurd hl (List.not_mem_nil l)
        · intro e he
          exact absurd he (List.not_mem_nil e)
    | tail hsteps hstep ih =>
        obtain ⟨hwf, hsi⟩ := ih
        cases hstep with
        | enqueue tid et pl key now o dur =>
            exact ⟨wf_enqueue tid et pl key now o dur hwf,
                   succ_enqueue tid et pl key now o dur hwf hsi⟩
        | manualRetry tid eid now o dur =>
            exact ⟨wf_retry tid eid now o dur hwf, succ_retry tid eid now o dur hsi⟩
        | deliverNotSent eid now o dur hguard =>
            exact ⟨wf_deliver eid now o dur hwf, succ_deliver eid now o dur hsi hguard⟩
  exact hmain.2

/-- C7 (witness): in the concrete reachable state after a successful
delivery, the stored event is sent and its succeeded_at is set. -/
theorem c7_witness :
    (c7WitnessEvent.succeeded_at ≠ none ↔ c7WitnessEvent.status = "sent") :=
  c7_succeeded_iff_sent [exTenant] c7WitnessDB
    (Relation.ReflTransGen.tail Relation.ReflTransGen.refl
      (GuardedStep.enqueue (initDB [exTenant]) 1 "payment.succeeded" exPayload "k7"
        0 (.response 200 "" []) 10))
    c7WitnessEvent (@findEvent_mem c7WitnessDB 1 c7WitnessEvent rfl)
